import Mathlib

/-!
Shallow embedding of src/python/optical_topology_or/ot_actions.py.

Modelling conventions:
* Python strings are Lean Strings; str.split('-'), str.startswith and slicing
  are modelled by list-level functions on String.data.
* Python int(s) / float(s) are modelled by pyInt? / pyFloat?, returning
  none where Python raises.  pyFloat? covers plain decimal literals with an
  optional sign (the forms this program ever feeds it); exponent, infinity and
  underscore forms of the Python grammar are not modelled.
* Decimal values (parsed frequencies, min_freq / max_freq decimal64 leaves) are
  modelled as exact fixed-point decimals Dec (value num / 10 ^ exp), so that
  every operation is kernel-computable; Dec.val maps them to ℚ for stating
  arithmetic properties.  The f-string rendering f"{x:.2f}" is modelled by
  Dec.round2 (round to a multiple of 1/100, ties to even), matching CPython's
  rendering at every value this development evaluates it on.  IEEE-754 double
  rounding inside the Python float arithmetic is abstracted to exact decimal
  arithmetic.
* The keyed maagic collections (interface list, roadm-connections, topology
  nodes/tps/connections) are association lists keyed by their name field;
  create appends, keyed access updates in place.
* An exception escaping an action body aborts the surrounding transaction, so a
  failing operation is modelled as none with the pre-state retained.
-/

namespace OTOR

/-! ### Python string primitives -/

def pySplit (s : String) : List String :=
  (s.data.splitOn (Char.ofNat 45)).map fun l => ⟨l⟩

def pyStartsWith (s pre : String) : Bool :=
  pre.data.isPrefixOf s.data

def strDrop (s : String) (n : Nat) : String :=
  ⟨s.data.drop n⟩

def natVal (cs : List Char) : Nat :=
  cs.foldl (fun a c => 10 * a + (c.toNat - 48)) 0

def digitsVal? (cs : List Char) : Option Nat :=
  if cs = [] then none
  else if cs.all Char.isDigit then some (natVal cs) else none

def pyIntL? : List Char → Option Int
  | [] => none
  | c :: rest =>
    if c = Char.ofNat 45 then (digitsVal? rest).map fun n => -(n : Int)
    else if c = Char.ofNat 43 then (digitsVal? rest).map fun n => (n : Int)
    else (digitsVal? (c :: rest)).map fun n => (n : Int)

def pyInt? (s : String) : Option Int := pyIntL? s.data

def digitChar (n : Nat) : Char := Char.ofNat (48 + n)

/-- Decimal digits of n, least significant first, with explicit fuel so that
the definition is structural (hence kernel-computable). -/
def toDigitsRevF : Nat → Nat → List Char
  | 0, _ => []
  | f + 1, n =>
    if n < 10 then [digitChar n] else digitChar (n % 10) :: toDigitsRevF f (n / 10)

/-- Model of Python str(n) for a nonnegative integer. -/
def natRepr (n : Nat) : String := ⟨(toDigitsRevF (n + 1) n).reverse⟩

/-- Model of Python str(i) for an arbitrary integer. -/
def intRepr (i : Int) : String :=
  if i < 0 then "-" ++ natRepr i.natAbs else natRepr i.toNat

/-- Model of the f-string padding f"{pp:02d}". -/
def fmtPP (pp : Int) : String :=
  if 0 ≤ pp ∧ pp < 10 then "0" ++ natRepr pp.toNat else intRepr pp

/-! ### Exact fixed-point decimals -/

/-- An exact decimal number num / 10 ^ exp.  Unlike ℚ, all of its operations
are kernel-computable (no gcd normalisation). -/
structure Dec where
  num : Int
  exp : Nat
deriving DecidableEq, Repr

def Dec.val (d : Dec) : ℚ := (d.num : ℚ) / 10 ^ d.exp

def Dec.le (a b : Dec) : Bool :=
  decide (a.num * 10 ^ b.exp ≤ b.num * 10 ^ a.exp)

def Dec.add (a b : Dec) : Dec :=
  ⟨a.num * 10 ^ b.exp + b.num * 10 ^ a.exp, a.exp + b.exp⟩

def Dec.sub (a b : Dec) : Dec :=
  ⟨a.num * 10 ^ b.exp - b.num * 10 ^ a.exp, a.exp + b.exp⟩

/-- The literal 0.05 (the half slot width). -/
def d05 : Dec := ⟨5, 2⟩

/-- Round half to even to an integer, on ℚ (specification level). -/
def roundHalfEven (q : ℚ) : Int :=
  if q - ⌊q⌋ < 1/2 then ⌊q⌋
  else if 1/2 < q - ⌊q⌋ then ⌊q⌋ + 1
  else if ⌊q⌋ % 2 = 0 then ⌊q⌋ else ⌊q⌋ + 1

/-- Specification-level reading of f"{q:.2f}" as an exact value. -/
def round2Q (q : ℚ) : ℚ := (roundHalfEven (100 * q) : ℚ) / 100

/-- Computable model of f"{x:.2f}" on exact decimals (round to two decimal
places, ties to even). -/
def Dec.round2 (a : Dec) : Dec :=
  let N : Int := a.num * 100
  let D : Int := 10 ^ a.exp
  let q := N.ediv D
  let r := N.emod D
  ⟨if 2 * r < D then q else if D < 2 * r then q + 1
    else if q % 2 = 0 then q else q + 1, 2⟩

/-- Model of Python float(s) restricted to plain signed decimal literals. -/
def pyFloatCore? (cs : List Char) : Option Dec :=
  let intd := cs.takeWhile Char.isDigit
  match cs.dropWhile Char.isDigit with
  | [] => if intd = [] then none else some ⟨(natVal intd : Int), 0⟩
  | c :: frac =>
    if c = Char.ofNat 46 then
      if frac.all Char.isDigit ∧ (intd ≠ [] ∨ frac ≠ []) then
        some ⟨(natVal intd : Int) * 10 ^ frac.length + (natVal frac : Int),
          frac.length⟩
      else none
    else none

def pyFloatL? : List Char → Option Dec
  | [] => none
  | c :: rest =>
    if c = Char.ofNat 45 then (pyFloatCore? rest).map fun d => ⟨-d.num, d.exp⟩
    else if c = Char.ofNat 43 then pyFloatCore? rest
    else pyFloatCore? (c :: rest)

def pyFloat? (s : String) : Option Dec := pyFloatL? s.data

/-! ### parse_if_name -/

structure IfInfo where
  layer : Option String := none
  degree_id : Option Int := none
  srg_id : Option Int := none
  pp_id : Option Int := none
  direction : Option String := none
  frequency : Option String := none
deriving DecidableEq, Repr

/-- Value of the maximal digit run at the front of cs, if nonempty; models
re.match digit-group captures SRG(\d+) and PP0*(\d+) on a dash-free token. -/
def digitRunVal? (cs : List Char) : Option Nat :=
  let ds := cs.takeWhile Char.isDigit
  if ds = [] then none else some (natVal ds)

/-- One step of the degree/srg/pp scan over the dash-separated tokens. -/
def updIds (acc : Option Int × Option Int × Option Int) (p : String) :
    Option Int × Option Int × Option Int :=
  if pyStartsWith p "DEG" then
    match pyInt? (strDrop p 3) with
    | some k => (some k, acc.2.1, acc.2.2)
    | none => acc
  else if pyStartsWith p "SRG" then
    match digitRunVal? (strDrop p 3).data with
    | some k => (acc.1, some (k : Int), acc.2.2)
    | none => acc
  else if pyStartsWith p "PP" then
    match digitRunVal? (strDrop p 2).data with
    | some k => (acc.1, acc.2.1, some (k : Int))
    | none => acc
  else acc

def parse_if_name (if_name : String) : IfInfo :=
  let parts := pySplit if_name
  match parts with
  | [] => {}
  | p0 :: _ =>
    let direction : Option String :=
      if "RX" ∈ parts then some "RX"
      else if "TX" ∈ parts then some "TX" else none
    let last := parts.getLastD ""
    let frequency : Option String :=
      if (pyFloat? last).isSome then some last else none
    let ids := parts.foldl updIds (none, none, none)
    let layer : Option String :=
      if p0 = "OMS" ∨ p0 = "OTS" ∨ p0 = "MC" ∨ p0 = "NMC" then some p0
      else if pyStartsWith p0 "SRG" then some "NMC" else none
    { layer := layer, degree_id := ids.1, srg_id := ids.2.1, pp_id := ids.2.2,
      direction := direction, frequency := frequency }

example : parse_if_name "MC-TTP-DEG1-RX-193.3" =
    { layer := some "MC", degree_id := some 1, direction := some "RX",
      frequency := some "193.3" } := by decide

example : parse_if_name "SRG1-PP03-TX-193.3" =
    { layer := some "NMC", srg_id := some 1, pp_id := some 3,
      direction := some "TX", frequency := some "193.3" } := by decide

example : parse_if_name "OMS-DEG1-TTP-RX" =
    { layer := some "OMS", degree_id := some 1, direction := some "RX" } := by
  decide

example : parse_if_name "" = {} := by decide

example : pyFloat? "193.3" = some ⟨1933, 1⟩ := by decide
example : pyFloat? "" = none := by decide
example : Dec.round2 ⟨193272, 3⟩ = ⟨19327, 2⟩ := by decide
example : Dec.round2 ⟨193275, 3⟩ = ⟨19328, 2⟩ := by decide
example : intRepr (-5) = "-5" ∧ fmtPP 3 = "03" ∧ fmtPP 100 = "100" := by decide

/-! ### Device data model -/

/-- One entry of the keyed interface list of a device.  mc_ttp holds the
min-freq/max-freq decimal64 pair when set, nmc_ctp the frequency/width string
pair when set. -/
structure Interface where
  name : String
  type : String := ""
  administrative_state : String := ""
  supporting_circuit_pack_name : String := ""
  supporting_port : String := ""
  supporting_interface_list : List String := []
  mc_ttp : Option (Dec × Dec) := none
  nmc_ctp : Option (String × String) := none
deriving DecidableEq, Repr

/-- One entry of the keyed roadm-connections list. -/
structure Conn where
  name : String
  src_if : String := ""
  dst_if : String := ""
  opticalControlMode : String := ""
  target_output_power : Option Dec := none
deriving DecidableEq, Repr

/-- The per-device slice of the config tree that the actions touch. -/
structure Dev where
  interface : List Interface := []
  roadm_connections : List Conn := []
  circuit_packs : List String := []
  address : Option String := none
deriving DecidableEq, Repr

def hasInterface (dev : Dev) (n : String) : Bool :=
  dev.interface.any fun i => i.name = n

/-! ### Interface name builders (the f-strings of the ensure helpers) -/

def mcIfName (degree : Int) (direction freq_str : String) : String :=
  "MC-TTP-DEG" ++ intRepr degree ++ "-" ++ direction ++ "-" ++ freq_str

def nmcIfName (degree : Int) (direction freq_str : String) : String :=
  "NMC-CTP-DEG" ++ intRepr degree ++ "-" ++ direction ++ "-" ++ freq_str

def srgPPIfName (pp : Int) (direction freq_str : String) : String :=
  "SRG1-PP" ++ fmtPP pp ++ "-" ++ direction ++ "-" ++ freq_str

/-- The fixed name prefix scanned by _slot_overlaps. -/
def mcPref (degree : Int) (direction : String) : String :=
  "MC-TTP-DEG" ++ intRepr degree ++ "-" ++ direction ++ "-"

/-! ### Interface provisioner -/

/-- ensure_mc_deg.  Returns none when float(freq_str) raises (the interface
then does not exist yet and the surrounding transaction is rolled back). -/
def ensure_mc_deg (dev : Dev) (degree : Int) (direction freq_str : String) :
    Option (String × Dev) :=
  let if_name := mcIfName degree direction freq_str
  if hasInterface dev if_name then some (if_name, dev)
  else
    match pyFloat? freq_str with
    | none => none
    | some f =>
      let scp := if direction = "RX" then "DEG" ++ intRepr degree ++ "-AMPRX"
        else "DEG" ++ intRepr degree ++ "-AMPTX"
      let sp := if direction = "RX" then "DEG" ++ intRepr degree ++ "-AMPRX-IN"
        else "DEG" ++ intRepr degree ++ "-AMPTX-OUT"
      let oms := if direction = "RX" then "OMS-DEG" ++ intRepr degree ++ "-TTP-RX"
        else "OMS-DEG" ++ intRepr degree ++ "-TTP-TX"
      let intf : Interface :=
        { name := if_name,
          type := "openROADM-if:mediaChannelTrailTerminationPoint",
          administrative_state := "inService",
          supporting_circuit_pack_name := scp,
          supporting_port := sp,
          supporting_interface_list := [oms],
          mc_ttp := some ((f.sub d05).round2, (f.add d05).round2) }
      some (if_name, { dev with interface := dev.interface ++ [intf] })

/-- ensure_nmc_deg (total: it never parses the frequency string). -/
def ensure_nmc_deg (dev : Dev) (degree : Int) (direction freq_str : String) :
    String × Dev :=
  let if_name := nmcIfName degree direction freq_str
  if hasInterface dev if_name then (if_name, dev)
  else
    let scp := if direction = "RX" then "DEG" ++ intRepr degree ++ "-AMPRX"
      else "DEG" ++ intRepr degree ++ "-AMPTX"
    let sp := if direction = "RX" then "DEG" ++ intRepr degree ++ "-AMPRX-IN"
      else "DEG" ++ intRepr degree ++ "-AMPTX-OUT"
    let mc_if := if direction = "RX" then mcIfName degree "RX" freq_str
      else mcIfName degree "TX" freq_str
    let intf : Interface :=
      { name := if_name,
        type := "openROADM-if:networkMediaChannelConnectionTerminationPoint",
        administrative_state := "inService",
        supporting_circuit_pack_name := scp,
        supporting_port := sp,
        supporting_interface_list := [mc_if],
        nmc_ctp := some (freq_str, "100") }
    (if_name, { dev with interface := dev.interface ++ [intf] })

/-- ensure_nmc_srg_pp (SRG index fixed to 1 in the source). -/
def ensure_nmc_srg_pp (dev : Dev) (pp : Int) (direction freq_str : String) :
    String × Dev :=
  let if_name := srgPPIfName pp direction freq_str
  if hasInterface dev if_name then (if_name, dev)
  else
    let sp := if direction = "RX" then "SRG1-IN" ++ intRepr pp
      else "SRG1-OUT" ++ intRepr pp
    let intf : Interface :=
      { name := if_name,
        type := "openROADM-if:networkMediaChannelConnectionTerminationPoint",
        administrative_state := "inService",
        supporting_circuit_pack_name := "SRG1-WSS",
        supporting_port := sp,
        supporting_interface_list := [],
        nmc_ctp := some (freq_str, "100") }
    (if_name, { dev with interface := dev.interface ++ [intf] })

/-! ### Frequency slot model -/

/-- _slot_overlaps: the proposed slot [f - 0.05, f + 0.05] against every stored
MC slot under the fixed prefix.  Interfaces without a readable mc_ttp pair are
skipped; a malformed candidate frequency reports no overlap. -/
def slot_overlaps (dev : Dev) (degree : Int) (direction freq_str : String) :
    Bool :=
  match pyFloat? freq_str with
  | none => false
  | some f =>
    dev.interface.any fun intf =>
      pyStartsWith intf.name (mcPref degree direction) &&
        match intf.mc_ttp with
        | none => false
        | some (cur_min, cur_max) =>
          !(Dec.le (f.add d05) cur_min || Dec.le cur_max (f.sub d05))

/-! ### BuildConnection -/

def srcRejectMsg (freq_str : String) (deg : Int) : String :=
  "Rejected: frequency slot " ++ freq_str ++ " overlaps existing MC on DEG" ++
    intRepr deg ++ " RX"

def dstRejectMsg (freq_str : String) (deg : Int) : String :=
  "Rejected: frequency slot " ++ freq_str ++ " overlaps existing MC on DEG" ++
    intRepr deg ++ " TX"

def connCreatedMsg (conn_name device_name : String) : String :=
  "Connection " ++ conn_name ++ " created on " ++ device_name

def degDegConnName (src_deg dst_deg : Int) (freq_str : String) : String :=
  "DEG" ++ intRepr src_deg ++ "-RX-to-DEG" ++ intRepr dst_deg ++ "-TX-" ++
    freq_str

def degPPConnName (src_deg dst_pp : Int) (freq_str : String) : String :=
  "DEG" ++ intRepr src_deg ++ "-RX-to-SRG1-PP" ++ fmtPP dst_pp ++ "-TX-" ++
    freq_str

/-- The final connection write: keyed create-or-reuse, then field assignment.
hasTOP models whether the target-output-power leaf exists in the schema
(hasattr on the maagic node). -/
def setConnFields (src_if dst_if : String) (hasTOP : Bool) (c : Conn) : Conn :=
  { c with
    src_if := src_if
    dst_if := dst_if
    opticalControlMode := "off"
    target_output_power := if hasTOP then some ⟨0, 0⟩ else c.target_output_power }

def upsertConn (dev : Dev) (conn_name src_if dst_if : String) (hasTOP : Bool) :
    Dev :=
  if dev.roadm_connections.any (fun c => c.name = conn_name) then
    { dev with roadm_connections := dev.roadm_connections.map fun c =>
        if c.name = conn_name then setConnFields src_if dst_if hasTOP c else c }
  else
    { dev with roadm_connections := dev.roadm_connections ++
        [setConnFields src_if dst_if hasTOP { name := conn_name }] }

/-- BuildConnection.cb_action on one device.  The result is the output string
together with the (possibly updated) device; none models an uncaught exception
(the write transaction is rolled back, so that path mutates nothing). -/
def buildConnection (device_name : String) (dev : Dev) (freq_str : String)
    (src_deg dst_deg dst_pp : Option Int) (hasTOP : Bool) :
    Option (String × Dev) :=
  match src_deg with
  | none => some ("Error: src-degree must be provided", dev)
  | some s =>
    if dst_deg = none ∧ dst_pp = none then
      some ("Error: either dst-degree or dst-pp must be provided", dev)
    else if dst_deg ≠ none ∧ dst_pp ≠ none then
      some ("Error: provide only one of dst-degree or dst-pp", dev)
    else if slot_overlaps dev s "RX" freq_str then
      some (srcRejectMsg freq_str s, dev)
    else
      match dst_deg, dst_pp with
      | some d, _ =>
        if slot_overlaps dev d "TX" freq_str then
          some (dstRejectMsg freq_str d, dev)
        else
          (ensure_mc_deg dev s "RX" freq_str).bind fun r1 =>
            let r2 := ensure_nmc_deg r1.2 s "RX" freq_str
            (ensure_mc_deg r2.2 d "TX" freq_str).bind fun r3 =>
              let r4 := ensure_nmc_deg r3.2 d "TX" freq_str
              let conn_name := degDegConnName s d freq_str
              some (connCreatedMsg conn_name device_name,
                upsertConn r4.2 conn_name r2.1 r4.1 hasTOP)
      | none, some pp =>
        (ensure_mc_deg dev s "RX" freq_str).bind fun r1 =>
          let r2 := ensure_nmc_deg r1.2 s "RX" freq_str
          let r3 := ensure_nmc_srg_pp r2.2 pp "TX" freq_str
          let conn_name := degPPConnName s pp freq_str
          some (connCreatedMsg conn_name device_name,
            upsertConn r3.2 conn_name r2.1 r3.1 hasTOP)
      | none, none =>
        -- dead branch: the both-none case is rejected above
        some ("Error: either dst-degree or dst-pp must be provided", dev)

/-! ### DeleteConnection -/

/-- A single quote character, used in the delete-action messages. -/
def sq : String := ⟨[Char.ofNat 39]⟩

def notFoundMsg (conn_name device_name : String) : String :=
  "Connection " ++ sq ++ conn_name ++ sq ++ " not found on device " ++
    device_name

def deletedMsg (conn_name device_name : String) : String :=
  "Connection " ++ sq ++ conn_name ++ sq ++
    " and associated MC/NMC interfaces successfully deleted on device " ++
    device_name

/-- supporting-interface-list of the named interface, empty when absent. -/
def silOf (dev : Dev) (n : String) : List String :=
  match dev.interface.find? (fun i => i.name = n) with
  | some i => i.supporting_interface_list
  | none => []

/-- DeleteConnection.cb_action on one device. -/
def deleteConnection (device_name : String) (dev : Dev) (conn_name : String) :
    String × Dev :=
  match dev.roadm_connections.find? (fun rc => rc.name = conn_name) with
  | none => (notFoundMsg conn_name device_name, dev)
  | some conn =>
    let src_if := conn.src_if
    let dst_if := conn.dst_if
    let conns := dev.roadm_connections.filter fun rc => !(rc.name = conn_name)
    let used0 := conns.flatMap fun rc => [rc.src_if, rc.dst_if]
    let used := used0 ++ used0.flatMap (silOf dev)
    let cands := [src_if, dst_if] ++ [src_if, dst_if].flatMap (silOf dev)
    let ifs := dev.interface.filter fun i =>
      !(cands.contains i.name && !(used.contains i.name))
    (deletedMsg conn_name device_name,
      { dev with roadm_connections := conns, interface := ifs })

/-! ### DiscoverTopology -/

/-- A termination point of the topology cache. -/
structure TP where
  name : String
  interface : String := ""
  layer : Option String := none
  degree_id : Option Int := none
  srg_id : Option Int := none
  direction : Option String := none
  frequency : Option String := none
deriving DecidableEq, Repr

/-- A node of the topology cache. -/
structure NodeR where
  name : String
  device : String := ""
  mgmt_ip : Option String := none
  degree : List Int := []
  srg : List Int := []
  tp : List TP := []
deriving DecidableEq, Repr

/-- A mirrored connection of the topology cache (keyed by connection name). -/
structure TopoConn where
  key : String
  name : String := ""
  device : String := ""
  src_if : String := ""
  dst_if : String := ""
deriving DecidableEq, Repr

structure Topo where
  node : List NodeR := []
  connection : List TopoConn := []
deriving DecidableEq, Repr

/-- re.match(r"DEG(\d+)-", cpname): anchored prefix DEG, digits, dash. -/
def degCpMatch? (cp : String) : Option Int :=
  if pyStartsWith cp "DEG" then
    let rest := (strDrop cp 3).data
    let ds := rest.takeWhile Char.isDigit
    if ds ≠ [] ∧ (rest.drop ds.length).head? = some (Char.ofNat 45) then
      some (natVal ds : Int)
    else none
  else none

/-- re.match(r"SRG(\d+)", cpname): anchored prefix SRG, digits. -/
def srgCpMatch? (cp : String) : Option Int :=
  if pyStartsWith cp "SRG" then (digitRunVal? (strDrop cp 3).data).map Int.ofNat
  else none

def nodeCreate (ns : List NodeR) (key : String) : List NodeR :=
  if ns.any (fun n => n.name = key) then ns else ns ++ [{ name := key }]

def nodeUpdate (ns : List NodeR) (key : String) (f : NodeR → NodeR) :
    List NodeR :=
  ns.map fun n => if n.name = key then f n else n

def addDegree (node : NodeR) (d : Int) : NodeR :=
  if node.degree.contains d then node
  else { node with degree := node.degree ++ [d] }

def addSrg (node : NodeR) (s : Int) : NodeR :=
  if node.srg.contains s then node else { node with srg := node.srg ++ [s] }

def tpCreate (tps : List TP) (key : String) : List TP :=
  if tps.any (fun t => t.name = key) then tps else tps ++ [{ name := key }]

def tpUpdate (tps : List TP) (key : String) (f : TP → TP) : List TP :=
  tps.map fun t => if t.name = key then f t else t

/-- Truthiness of an optional string field of the parse result (Python
if info[...]:). -/
def truthyS : Option String → Bool
  | none => false
  | some s => !(s = "")

/-- The tp-field assignment block of the interface-discovery loop. -/
def setTpFields (if_name : String) (info : IfInfo) (t : TP) : TP :=
  { t with
    interface := if_name
    layer := if truthyS info.layer then info.layer else t.layer
    degree_id := if info.degree_id.isSome then info.degree_id else t.degree_id
    srg_id := if info.srg_id.isSome then info.srg_id else t.srg_id
    direction := if truthyS info.direction then info.direction else t.direction
    frequency := if truthyS info.frequency then info.frequency else t.frequency }

/-- One iteration of the interface-discovery loop on the current node. -/
def processIntf (node : NodeR) (if_name : String) : NodeR :=
  let info := parse_if_name if_name
  let node := { node with tp := tpCreate node.tp if_name }
  let node := match info.degree_id with
    | some d => addDegree node d
    | none => node
  let node := match info.srg_id with
    | some s => addSrg node s
    | none => node
  { node with tp := tpUpdate node.tp if_name (setTpFields if_name info) }

/-- One iteration of the circuit-pack discovery loop on the current node. -/
def processCp (node : NodeR) (cp : String) : NodeR :=
  match degCpMatch? cp with
  | some d => addDegree node d
  | none =>
    match srgCpMatch? cp with
    | some s => addSrg node s
    | none => node

/-- The node-mutation block of the per-device discovery loop. -/
def buildNode (dev_name : String) (dev : Dev) (node : NodeR) : NodeR :=
  let node := { node with device := dev_name }
  let node := match dev.address with
    | some a => if a = "" then node else { node with mgmt_ip := some a }
    | none => node
  let node := dev.circuit_packs.foldl processCp node
  dev.interface.foldl (fun n i => processIntf n i.name) node

def connCreate (cs : List TopoConn) (key : String) : List TopoConn :=
  if cs.any (fun c => c.key = key) then cs else cs ++ [{ key := key }]

def connUpdate (cs : List TopoConn) (key : String) (f : TopoConn → TopoConn) :
    List TopoConn :=
  cs.map fun c => if c.key = key then f c else c

def setTopoConnFields (dev_name : String) (rc : Conn) (c : TopoConn) :
    TopoConn :=
  { c with
    name := rc.name
    device := dev_name
    src_if := rc.src_if
    dst_if := rc.dst_if }

/-- One device of the discovery loop: create/refresh its node, then mirror its
roadm-connections. -/
def processDevice (t : Topo) (dev_name : String) (dev : Dev) : Topo :=
  let nodes := nodeCreate t.node dev_name
  let nodes := nodeUpdate nodes dev_name (buildNode dev_name dev)
  let conns := dev.roadm_connections.foldl
    (fun cs rc =>
      connUpdate (connCreate cs rc.name) rc.name (setTopoConnFields dev_name rc))
    t.connection
  { node := nodes, connection := conns }

/-- One step of the discovery loop: look up the device in the device table
(a missing device is silently skipped) and process it. -/
def discoverStep (devtable : List (String × Dev)) (t : Topo) (dn : String) :
    Topo :=
  match devtable.find? (fun p => p.1 = dn) with
  | none => t
  | some p => processDevice t dn p.2

/-- DiscoverTopology.cb_action.  devtable is the NCS device table (name and
per-device config); input_devs the action input (empty list = all devices).
The previous topology cache is cleared wholesale before the rebuild. -/
def discoverTopology (devtable : List (String × Dev)) (topo : Topo)
    (input_devs : List String) : Topo × String :=
  let cleared : Topo := { topo with node := [], connection := [] }
  let devs := if input_devs = [] then devtable.map (fun p => p.1)
    else input_devs
  (devs.foldl (discoverStep devtable) cleared, "Discovery complete")

/-! ### Helper lemmas -/

lemma hasInterface_append_self (dev : Dev) (l : List Interface)
    (intf : Interface) (n : String) (h : intf.name = n) :
    hasInterface { dev with interface := l ++ [intf] } n = true := by
  simp [hasInterface, h]

/-! ## C5: end-to-end degree-to-degree build -/

/-- The four interfaces and the connection that the end-to-end build of C5
creates on an empty device. -/
def mcRX1 : Interface :=
  { name := "MC-TTP-DEG1-RX-193.3",
    type := "openROADM-if:mediaChannelTrailTerminationPoint",
    administrative_state := "inService",
    supporting_circuit_pack_name := "DEG1-AMPRX",
    supporting_port := "DEG1-AMPRX-IN",
    supporting_interface_list := ["OMS-DEG1-TTP-RX"],
    mc_ttp := some (⟨19325, 2⟩, ⟨19335, 2⟩) }

def nmcRX1 : Interface :=
  { name := "NMC-CTP-DEG1-RX-193.3",
    type := "openROADM-if:networkMediaChannelConnectionTerminationPoint",
    administrative_state := "inService",
    supporting_circuit_pack_name := "DEG1-AMPRX",
    supporting_port := "DEG1-AMPRX-IN",
    supporting_interface_list := ["MC-TTP-DEG1-RX-193.3"],
    nmc_ctp := some ("193.3", "100") }

def mcTX2 : Interface :=
  { name := "MC-TTP-DEG2-TX-193.3",
    type := "openROADM-if:mediaChannelTrailTerminationPoint",
    administrative_state := "inService",
    supporting_circuit_pack_name := "DEG2-AMPTX",
    supporting_port := "DEG2-AMPTX-OUT",
    supporting_interface_list := ["OMS-DEG2-TTP-TX"],
    mc_ttp := some (⟨19325, 2⟩, ⟨19335, 2⟩) }

def nmcTX2 : Interface :=
  { name := "NMC-CTP-DEG2-TX-193.3",
    type := "openROADM-if:networkMediaChannelConnectionTerminationPoint",
    administrative_state := "inService",
    supporting_circuit_pack_name := "DEG2-AMPTX",
    supporting_port := "DEG2-AMPTX-OUT",
    supporting_interface_list := ["MC-TTP-DEG2-TX-193.3"],
    nmc_ctp := some ("193.3", "100") }

/-- Device state after the C5 build: four interfaces plus one connection. -/
def builtDev (hasTOP : Bool) : Dev :=
  { interface := [mcRX1, nmcRX1, mcTX2, nmcTX2],
    roadm_connections :=
      [{ name := "DEG1-RX-to-DEG2-TX-193.3",
         src_if := "NMC-CTP-DEG1-RX-193.3",
         dst_if := "NMC-CTP-DEG2-TX-193.3",
         opticalControlMode := "off",
         target_output_power := if hasTOP then some ⟨0, 0⟩ else none }] }

/-- C5.  On an empty device, BuildConnection with src_degree=1, dst_degree=2,
frequency "193.3" creates exactly the four interfaces
MC-TTP-DEG1-RX-193.3 (slot [193.25, 193.35]), NMC-CTP-DEG1-RX-193.3,
MC-TTP-DEG2-TX-193.3, NMC-CTP-DEG2-TX-193.3 and the single connection
DEG1-RX-to-DEG2-TX-193.3 referencing the two NMC interfaces, with control mode
"off" and target output power 0 when that leaf exists, and reports the
connection name in its result string. -/
theorem build_end_to_end_deg_deg (hasTOP : Bool) :
    buildConnection "D1" {} "193.3" (some 1) (some 2) none hasTOP =
      some (connCreatedMsg "DEG1-RX-to-DEG2-TX-193.3" "D1", builtDev hasTOP) := by
  cases hasTOP <;> decide

/-! ## C8: discovery idempotence -/

/-- C8.  DiscoverTopology clears the whole cache before rebuilding, so running
it twice with the same device table and the same input device list yields
identical topology-cache content (nodes with their degrees, SRGs and
termination points, and mirrored connections). -/
theorem discover_idempotent (devtable : List (String × Dev)) (topo : Topo)
    (input_devs : List String) :
    discoverTopology devtable (discoverTopology devtable topo input_devs).1
        input_devs =
      discoverTopology devtable topo input_devs := rfl

/-! ## C4: build validation matrix and atomicity of rejection -/

/-- C4.  The BuildConnection validation matrix: a missing source degree is
rejected first (for every destination combination) as the missing-parameter
error; both-absent and both-present destinations are rejected as the
ambiguous/missing-destination errors; and every rejection, including the two
slot-conflict rejections, returns the device state unchanged (the checks run
before the write transaction opens, so no interface or connection is created
or modified). -/
theorem build_validation_matrix (dn : String) (dev : Dev) (fs : String)
    (hasTOP : Bool) :
    (∀ dd dp, buildConnection dn dev fs none dd dp hasTOP =
      some ("Error: src-degree must be provided", dev)) ∧
    (∀ s, buildConnection dn dev fs (some s) none none hasTOP =
      some ("Error: either dst-degree or dst-pp must be provided", dev)) ∧
    (∀ s d p, buildConnection dn dev fs (some s) (some d) (some p) hasTOP =
      some ("Error: provide only one of dst-degree or dst-pp", dev)) ∧
    (∀ s dd dp, (dd.isSome ↔ dp = none) →
      slot_overlaps dev s "RX" fs = true →
      buildConnection dn dev fs (some s) dd dp hasTOP =
        some (srcRejectMsg fs s, dev)) ∧
    (∀ s d, slot_overlaps dev s "RX" fs = false →
      slot_overlaps dev d "TX" fs = true →
      buildConnection dn dev fs (some s) (some d) none hasTOP =
        some (dstRejectMsg fs d, dev)) := by
  refine ⟨fun dd dp => rfl, fun s => rfl, fun s d p => by simp [buildConnection],
    fun s dd dp hv ho => ?_, fun s d h1 h2 => by simp [buildConnection, h1, h2]⟩
  match dd, dp with
  | some d, none => simp [buildConnection, ho]
  | none, some p => simp [buildConnection, ho]
  | some d, some p => simp at hv
  | none, none => simp at hv

/-- Witness for C4 at a concrete state: missing source degree on an empty
device is rejected without mutation. -/
theorem build_validation_matrix_witness :
    buildConnection "D1" {} "193.3" none (some 2) none false =
      some ("Error: src-degree must be provided", {}) :=
  (build_validation_matrix "D1" {} "193.3" false).1 (some 2) none

/-! ## C3: idempotence of the provisioner -/

/-- C3.  Each ensure operation is idempotent: when a first call returns an
interface name and a device state, calling it again with identical arguments
on that state returns the same name and leaves the interface collection (and
every attribute of the existing interface) unchanged. -/
theorem ensure_idempotent (dev : Dev) (deg pp : Int) (dir fs : String) :
    (∀ n dev1, ensure_mc_deg dev deg dir fs = some (n, dev1) →
      ensure_mc_deg dev1 deg dir fs = some (n, dev1)) ∧
    (ensure_nmc_deg (ensure_nmc_deg dev deg dir fs).2 deg dir fs =
      ensure_nmc_deg dev deg dir fs) ∧
    (ensure_nmc_srg_pp (ensure_nmc_srg_pp dev pp dir fs).2 pp dir fs =
      ensure_nmc_srg_pp dev pp dir fs) := by
  refine ⟨fun n dev1 h => ?_, ?_, ?_⟩
  · unfold ensure_mc_deg at h ⊢
    by_cases hIn : hasInterface dev (mcIfName deg dir fs) = true
    · simp only [hIn, if_true] at h ⊢
      obtain ⟨rfl, rfl⟩ : n = mcIfName deg dir fs ∧ dev1 = dev := by
        simpa using h.symm
      simp [hIn]
    · simp only [Bool.not_eq_true] at hIn
      simp only [hIn, Bool.false_eq_true, if_false] at h
      cases hq : pyFloat? fs with
      | none => rw [hq] at h; exact absurd h (by simp)
      | some f =>
        rw [hq] at h
        obtain ⟨rfl, rfl⟩ : n = mcIfName deg dir fs ∧ dev1 = _ := by
          simpa using h.symm
        rw [if_pos (hasInterface_append_self dev _ _ _ rfl)]
  · unfold ensure_nmc_deg
    by_cases hIn : hasInterface dev (nmcIfName deg dir fs) = true
    · simp [hIn]
    · simp only [Bool.not_eq_true] at hIn
      simp only [hIn, Bool.false_eq_true, if_false]
      rw [if_pos (hasInterface_append_self dev _ _ _ rfl)]
  · unfold ensure_nmc_srg_pp
    by_cases hIn : hasInterface dev (srgPPIfName pp dir fs) = true
    · simp [hIn]
    · simp only [Bool.not_eq_true] at hIn
      simp only [hIn, Bool.false_eq_true, if_false]
      rw [if_pos (hasInterface_append_self dev _ _ _ rfl)]

/-- Device holding exactly the MC interface created by the first
ensure_mc_deg call of the C3 witness. -/
def mcOnlyDev : Dev := { interface := [mcRX1] }

/-- Witness for C3: after creating MC-TTP-DEG1-RX-193.3 on an empty device,
a second identical call returns the same name and the same state. -/
theorem ensure_idempotent_witness :
    ensure_mc_deg mcOnlyDev 1 "RX" "193.3" =
      some ("MC-TTP-DEG1-RX-193.3", mcOnlyDev) :=
  (ensure_idempotent {} 1 3 "RX" "193.3").1 "MC-TTP-DEG1-RX-193.3" mcOnlyDev
    (by decide)

/-! ## C7: parser totality, purity and conservativity -/

lemma updIds_fst (acc : Option Int × Option Int × Option Int) (p : String)
    (h : pyStartsWith p "DEG" = true → pyInt? (strDrop p 3) = none) :
    (updIds acc p).1 = acc.1 := by
  unfold updIds
  by_cases hD : pyStartsWith p "DEG" = true
  · simp [hD, h hD]
  · simp only [Bool.not_eq_true] at hD
    simp only [hD, Bool.false_eq_true, if_false]
    split
    · split <;> rfl
    · split
      · split <;> rfl
      · rfl

lemma updIds_srg (acc : Option Int × Option Int × Option Int) (p : String)
    (h : pyStartsWith p "SRG" = true → digitRunVal? (strDrop p 3).data = none) :
    (updIds acc p).2.1 = acc.2.1 := by
  unfold updIds
  by_cases hD : pyStartsWith p "DEG" = true
  · simp only [hD, if_true]
    split <;> rfl
  · simp only [Bool.not_eq_true] at hD
    simp only [hD, Bool.false_eq_true, if_false]
    by_cases hS : pyStartsWith p "SRG" = true
    · simp [hS, h hS]
    · simp only [Bool.not_eq_true] at hS
      simp only [hS, Bool.false_eq_true, if_false]
      split
      · split <;> rfl
      · rfl

lemma updIds_pp (acc : Option Int × Option Int × Option Int) (p : String)
    (h : pyStartsWith p "PP" = true → digitRunVal? (strDrop p 2).data = none) :
    (updIds acc p).2.2 = acc.2.2 := by
  unfold updIds
  by_cases hD : pyStartsWith p "DEG" = true
  · simp only [hD, if_true]
    split <;> rfl
  · simp only [Bool.not_eq_true] at hD
    simp only [hD, Bool.false_eq_true, if_false]
    by_cases hS : pyStartsWith p "SRG" = true
    · simp only [hS, if_true]
      split <;> rfl
    · simp only [Bool.not_eq_true] at hS
      simp only [hS, Bool.false_eq_true, if_false]
      by_cases hP : pyStartsWith p "PP" = true
      · simp [hP, h hP]
      · simp only [Bool.not_eq_true] at hP
        simp [hP]

lemma foldl_updIds_fst (l : List String)
    (h : ∀ p ∈ l, pyStartsWith p "DEG" = true → pyInt? (strDrop p 3) = none) :
    ∀ acc, (l.foldl updIds acc).1 = acc.1 := by
  induction l with
  | nil => intro acc; rfl
  | cons p l ih =>
    intro acc
    rw [List.foldl_cons, ih (fun q hq => h q (List.mem_cons_of_mem p hq)),
      updIds_fst acc p (h p (List.mem_cons_self p l))]

lemma foldl_updIds_srg (l : List String)
    (h : ∀ p ∈ l, pyStartsWith p "SRG" = true →
      digitRunVal? (strDrop p 3).data = none) :
    ∀ acc, (l.foldl updIds acc).2.1 = acc.2.1 := by
  induction l with
  | nil => intro acc; rfl
  | cons p l ih =>
    intro acc
    rw [List.foldl_cons, ih (fun q hq => h q (List.mem_cons_of_mem p hq)),
      updIds_srg acc p (h p (List.mem_cons_self p l))]

lemma foldl_updIds_pp (l : List String)
    (h : ∀ p ∈ l, pyStartsWith p "PP" = true →
      digitRunVal? (strDrop p 2).data = none) :
    ∀ acc, (l.foldl updIds acc).2.2 = acc.2.2 := by
  induction l with
  | nil => intro acc; rfl
  | cons p l ih =>
    intro acc
    rw [List.foldl_cons, ih (fun q hq => h q (List.mem_cons_of_mem p hq)),
      updIds_pp acc p (h p (List.mem_cons_self p l))]

/-- C7.  parse_if_name is a plain total function (it is defined for every
input string, performs no store access and raises nothing), and every field
that is not derivable from the name stays unset: no RX/TX token means no
direction, a non-numeric last token means no frequency, no successfully
parsing DEG/SRG/PP token means no degree/srg/pp id, and a first token that is
neither a known layer tag nor an SRG token means no layer. -/
theorem parse_if_name_conservative (s : String) :
    (("RX" ∉ pySplit s ∧ "TX" ∉ pySplit s) →
      (parse_if_name s).direction = none) ∧
    (pyFloat? ((pySplit s).getLastD "") = none →
      (parse_if_name s).frequency = none) ∧
    ((∀ p ∈ pySplit s, pyStartsWith p "DEG" = true →
        pyInt? (strDrop p 3) = none) →
      (parse_if_name s).degree_id = none) ∧
    ((∀ p ∈ pySplit s, pyStartsWith p "SRG" = true →
        digitRunVal? (strDrop p 3).data = none) →
      (parse_if_name s).srg_id = none) ∧
    ((∀ p ∈ pySplit s, pyStartsWith p "PP" = true →
        digitRunVal? (strDrop p 2).data = none) →
      (parse_if_name s).pp_id = none) ∧
    (((pySplit s).headD "" ∉ (["OMS", "OTS", "MC", "NMC"] : List String) ∧
        pyStartsWith ((pySplit s).headD "") "SRG" = false) →
      (parse_if_name s).layer = none) := by
  rcases hps : pySplit s with _ | ⟨p0, rest⟩
  · refine ⟨?_, ?_, ?_, ?_, ?_, ?_⟩ <;> intro h <;> simp [parse_if_name, hps]
  · refine ⟨?_, ?_, ?_, ?_, ?_, ?_⟩ <;> intro h <;>
      simp only [parse_if_name, hps]
    · simp [h.1, h.2]
    · rw [List.getLastD_eq_getLast?] at h
      simp [h]
    · exact foldl_updIds_fst (p0 :: rest) h (none, none, none)
    · exact foldl_updIds_srg (p0 :: rest) h (none, none, none)
    · exact foldl_updIds_pp (p0 :: rest) h (none, none, none)
    · rcases h with ⟨h1, h2⟩
      simp only [List.headD_cons] at h1 h2
      simp only [List.mem_cons, List.mem_singleton] at h1
      push_neg at h1
      simp [h1.1, h1.2.1, h1.2.2.1, h1.2.2.2, h2]

/-- Witness for C7 at the empty string: every field of the parse result is
unset. -/
theorem parse_if_name_conservative_witness :
    (parse_if_name "").direction = none ∧ (parse_if_name "").frequency = none ∧
    (parse_if_name "").degree_id = none ∧ (parse_if_name "").srg_id = none ∧
    (parse_if_name "").pp_id = none ∧ (parse_if_name "").layer = none :=
  ⟨(parse_if_name_conservative "").1 (by decide),
    (parse_if_name_conservative "").2.1 (by decide),
    (parse_if_name_conservative "").2.2.1 (by decide),
    (parse_if_name_conservative "").2.2.2.1 (by decide),
    (parse_if_name_conservative "").2.2.2.2.1 (by decide),
    (parse_if_name_conservative "").2.2.2.2.2 (by decide)⟩

/-! ## C10: discovery clears unlisted devices from the cache -/

lemma addDegree_name (node : NodeR) (d : Int) :
    (addDegree node d).name = node.name := by
  unfold addDegree; split <;> rfl

lemma addSrg_name (node : NodeR) (s : Int) :
    (addSrg node s).name = node.name := by
  unfold addSrg; split <;> rfl

lemma processIntf_name (node : NodeR) (i : String) :
    (processIntf node i).name = node.name := by
  simp only [processIntf]
  split <;> split <;> simp [addDegree_name, addSrg_name]

lemma processCp_name (node : NodeR) (cp : String) :
    (processCp node cp).name = node.name := by
  unfold processCp
  split
  · exact addDegree_name _ _
  · split
    · exact addSrg_name _ _
    · rfl

lemma foldl_name_preserved {α : Type} (g : NodeR → α → NodeR)
    (hg : ∀ n x, (g n x).name = n.name) (l : List α) (node : NodeR) :
    (l.foldl g node).name = node.name := by
  induction l generalizing node with
  | nil => rfl
  | cons x l ih => rw [List.foldl_cons, ih, hg]

lemma buildNode_name (dn : String) (dev : Dev) (node : NodeR) :
    (buildNode dn dev node).name = node.name := by
  simp only [buildNode]
  rw [foldl_name_preserved (fun n (i : Interface) => processIntf n i.name)
      (fun n i => processIntf_name n i.name),
    foldl_name_preserved processCp processCp_name]
  split <;> (try split) <;> rfl

lemma mem_nodeCreate (ns : List NodeR) (key : String) (n : NodeR)
    (h : n ∈ nodeCreate ns key) : n ∈ ns ∨ n.name = key := by
  unfold nodeCreate at h
  split at h
  · exact Or.inl h
  · rcases List.mem_append.1 h with h | h
    · exact Or.inl h
    · right
      simp only [List.mem_singleton] at h
      rw [h]

lemma mem_nodeUpdate (ns : List NodeR) (key : String) (f : NodeR → NodeR)
    (n : NodeR) (h : n ∈ nodeUpdate ns key f) :
    ∃ m ∈ ns, (m.name = key ∧ n = f m) ∨ (¬ m.name = key ∧ n = m) := by
  unfold nodeUpdate at h
  rcases List.mem_map.1 h with ⟨m, hm, hn⟩
  refine ⟨m, hm, ?_⟩
  by_cases hk : m.name = key
  · rw [if_pos hk] at hn; exact Or.inl ⟨hk, hn.symm⟩
  · rw [if_neg hk] at hn; exact Or.inr ⟨hk, hn.symm⟩

lemma mem_connCreate (cs : List TopoConn) (key : String) (c : TopoConn)
    (h : c ∈ connCreate cs key) : c ∈ cs ∨ c = { key := key } := by
  unfold connCreate at h
  split at h
  · exact Or.inl h
  · rcases List.mem_append.1 h with h | h
    · exact Or.inl h
    · simp only [List.mem_singleton] at h
      exact Or.inr h

lemma mem_connUpdate (cs : List TopoConn) (key : String)
    (f : TopoConn → TopoConn) (c : TopoConn) (h : c ∈ connUpdate cs key f) :
    ∃ m ∈ cs, (m.key = key ∧ c = f m) ∨ (¬ m.key = key ∧ c = m) := by
  unfold connUpdate at h
  rcases List.mem_map.1 h with ⟨m, hm, hc⟩
  refine ⟨m, hm, ?_⟩
  by_cases hk : m.key = key
  · rw [if_pos hk] at hc; exact Or.inl ⟨hk, hc.symm⟩
  · rw [if_neg hk] at hc; exact Or.inr ⟨hk, hc.symm⟩

lemma processDevice_inv (P : String → Prop) (t : Topo) (dn : String)
    (dev : Dev) (hdn : P dn) (h1 : ∀ n ∈ t.node, P n.name)
    (h2 : ∀ c ∈ t.connection, P c.device) :
    (∀ n ∈ (processDevice t dn dev).node, P n.name) ∧
    (∀ c ∈ (processDevice t dn dev).connection, P c.device) := by
  constructor
  · intro n hn
    simp only [processDevice] at hn
    rcases mem_nodeUpdate _ _ _ _ hn with ⟨m, hm, ⟨_, rfl⟩ | ⟨_, hnm⟩⟩
    · rcases mem_nodeCreate _ _ _ hm with hm | hm
      · rw [buildNode_name]; exact h1 m hm
      · rw [buildNode_name, hm]; exact hdn
    · rcases mem_nodeCreate _ _ _ hm with hm | hm
      · rw [hnm]; exact h1 m hm
      · rw [hnm, hm]; exact hdn
  · intro c hc
    simp only [processDevice] at hc
    revert hc
    have key : ∀ cs, (∀ c ∈ cs, P c.device) →
        ∀ c ∈ dev.roadm_connections.foldl
          (fun cs rc => connUpdate (connCreate cs rc.name) rc.name
            (setTopoConnFields dn rc)) cs, P c.device := by
      induction dev.roadm_connections with
      | nil => exact fun cs h c hc => h c hc
      | cons rc l ih =>
        intro cs hcs
        rw [List.foldl_cons]
        refine ih _ ?_
        intro c hc
        rcases mem_connUpdate _ _ _ _ hc with ⟨m, hm, ⟨_, rfl⟩ | ⟨hk, hcm⟩⟩
        · exact hdn
        · rcases mem_connCreate _ _ _ hm with hm | hm
          · rw [hcm]; exact hcs m hm
          · exact absurd (by rw [hm]) hk
    exact key t.connection h2 _

lemma discoverStep_inv (P : String → Prop) (devtable : List (String × Dev))
    (t : Topo) (dn : String) (hdn : P dn) (h1 : ∀ n ∈ t.node, P n.name)
    (h2 : ∀ c ∈ t.connection, P c.device) :
    (∀ n ∈ (discoverStep devtable t dn).node, P n.name) ∧
    (∀ c ∈ (discoverStep devtable t dn).connection, P c.device) := by
  unfold discoverStep
  cases devtable.find? (fun p => p.1 = dn) with
  | none => exact ⟨h1, h2⟩
  | some p => exact processDevice_inv P t dn p.2 hdn h1 h2

/-- C10.  DiscoverTopology with a non-empty device list rebuilds the cache
only for the listed devices: the whole cache is cleared first, so after the
run every cached node is named by a listed device and every mirrored
connection belongs to a listed device; entries of unlisted devices do not
survive. -/
theorem discover_partial_clears_unlisted (devtable : List (String × Dev))
    (topo : Topo) (input_devs : List String) (hne : input_devs ≠ []) :
    (∀ n ∈ (discoverTopology devtable topo input_devs).1.node,
      n.name ∈ input_devs) ∧
    (∀ c ∈ (discoverTopology devtable topo input_devs).1.connection,
      c.device ∈ input_devs) := by
  unfold discoverTopology
  simp only [if_neg hne]
  have key : ∀ (l : List String), (∀ d ∈ l, d ∈ input_devs) → ∀ (t : Topo),
      (∀ n ∈ t.node, n.name ∈ input_devs) →
      (∀ c ∈ t.connection, c.device ∈ input_devs) →
      (∀ n ∈ (l.foldl (discoverStep devtable) t).node, n.name ∈ input_devs) ∧
      (∀ c ∈ (l.foldl (discoverStep devtable) t).connection,
        c.device ∈ input_devs) := by
    intro l
    induction l with
    | nil => exact fun _ t h1 h2 => ⟨h1, h2⟩
    | cons dn l ih =>
      intro hl t h1 h2
      rw [List.foldl_cons]
      have hstep := discoverStep_inv (· ∈ input_devs) devtable t dn
        (hl dn (List.mem_cons_self dn l)) h1 h2
      exact ih (fun d hd => hl d (List.mem_cons_of_mem dn hd)) _ hstep.1 hstep.2
  exact key input_devs (fun d hd => hd) _ (by simp) (by simp)

/-- A stale topology cache holding entries of a device "B" that is not in the
discovery input list. -/
def staleTopo : Topo :=
  { node := [{ name := "B", device := "B" }],
    connection := [{ key := "c1", name := "c1", device := "B" }] }

/-- Witness for C10: after discovery over the device list ["A"], no cached
node or mirrored connection of the unlisted device "B" survives. -/
theorem discover_partial_clears_unlisted_witness :
    "B" ∉ (discoverTopology [("A", {})] staleTopo ["A"]).1.node.map
        NodeR.name ∧
    "B" ∉ (discoverTopology [("A", {})] staleTopo ["A"]).1.connection.map
        TopoConn.device := by
  constructor
  · intro hmem
    rcases List.mem_map.1 hmem with ⟨n, hn, hname⟩
    have h := (discover_partial_clears_unlisted [("A", {})] staleTopo ["A"]
      (by decide)).1 n hn
    rw [hname] at h
    exact absurd h (by decide)
  · intro hmem
    rcases List.mem_map.1 hmem with ⟨c, hc, hdev⟩
    have h := (discover_partial_clears_unlisted [("A", {})] staleTopo ["A"]
      (by decide)).2 c hc
    rw [hdev] at h
    exact absurd h (by decide)

/-! ## Exact-decimal / rational bridge lemmas -/

lemma Dec.le_iff (a b : Dec) : Dec.le a b = true ↔ a.val ≤ b.val := by
  unfold Dec.le Dec.val
  rw [decide_eq_true_eq,
    div_le_div_iff (by positivity) (by positivity)]
  constructor <;> intro h <;> exact_mod_cast h

lemma Dec.le_eq_false_iff (a b : Dec) : Dec.le a b = false ↔ b.val < a.val := by
  rw [Bool.eq_false_iff]
  simp [Ne, Dec.le_iff, not_le]

lemma Dec.val_add (a b : Dec) : (Dec.add a b).val = a.val + b.val := by
  unfold Dec.add Dec.val
  push_cast
  rw [pow_add]
  field_simp

lemma Dec.val_sub (a b : Dec) : (Dec.sub a b).val = a.val - b.val := by
  unfold Dec.sub Dec.val
  push_cast
  rw [pow_add]
  field_simp
  try ring

lemma d05_val : d05.val = 1/20 := by norm_num [Dec.val, d05]

lemma Dec.floor_100_val (a : Dec) :
    ⌊100 * a.val⌋ = (a.num * 100).ediv (10 ^ a.exp) := by
  unfold Dec.val
  have h : (100 : ℚ) * ((a.num : ℚ) / 10 ^ a.exp) =
      ((a.num * 100 : ℤ) : ℚ) / ((10 ^ a.exp : ℕ) : ℚ) := by
    push_cast
    ring
  rw [h, Rat.floor_intCast_div_natCast]
  norm_num
  rfl

lemma Dec.frac_100_val (a : Dec) :
    100 * a.val - ⌊100 * a.val⌋ =
      (((a.num * 100).emod (10 ^ a.exp) : ℤ) : ℚ) /
        (((10 : ℤ) ^ a.exp : ℤ) : ℚ) := by
  rw [Dec.floor_100_val]
  have hD : (((10 : ℤ) ^ a.exp : ℤ) : ℚ) ≠ 0 := by positivity
  have hdm := Int.ediv_add_emod (a.num * 100) (10 ^ a.exp)
  have hcast : ((a.num * 100 : ℤ) : ℚ) =
      (((10 : ℤ) ^ a.exp : ℤ) : ℚ) * ((a.num * 100).ediv (10 ^ a.exp) : ℚ) +
        ((a.num * 100).emod (10 ^ a.exp) : ℚ) := by
    exact_mod_cast congrArg (fun z : ℤ => (z : ℚ)) hdm.symm
  have hval : 100 * a.val = ((a.num * 100 : ℤ) : ℚ) /
      (((10 : ℤ) ^ a.exp : ℤ) : ℚ) := by
    unfold Dec.val
    push_cast
    ring
  rw [hval, hcast]
  field_simp

lemma Dec.round2_num (a : Dec) :
    (Dec.round2 a).num = roundHalfEven (100 * a.val) ∧
      (Dec.round2 a).exp = 2 := by
  have hDpos : (0 : ℤ) < 10 ^ a.exp := by positivity
  have hDq : (0 : ℚ) < (((10 : ℤ) ^ a.exp : ℤ) : ℚ) := by exact_mod_cast hDpos
  have hfloor := Dec.floor_100_val a
  have hfrac := Dec.frac_100_val a
  have h1 : (100 * a.val - ⌊100 * a.val⌋ < 1/2) ↔
      2 * (a.num * 100).emod (10 ^ a.exp) < 10 ^ a.exp := by
    rw [hfrac, div_lt_div_iff hDq (by norm_num)]
    constructor <;> intro h
    · exact_mod_cast (by linarith :
        (2 : ℚ) * ((a.num * 100).emod (10 ^ a.exp) : ℚ) <
          (((10 : ℤ) ^ a.exp : ℤ) : ℚ))
    · have hq : (2 : ℚ) * ((a.num * 100).emod (10 ^ a.exp) : ℚ) <
          (((10 : ℤ) ^ a.exp : ℤ) : ℚ) := by exact_mod_cast h
      linarith
  have h2 : ((1:ℚ)/2 < 100 * a.val - ⌊100 * a.val⌋) ↔
      10 ^ a.exp < 2 * (a.num * 100).emod (10 ^ a.exp) := by
    rw [hfrac, div_lt_div_iff (by norm_num) hDq]
    constructor <;> intro h
    · exact_mod_cast (by linarith :
        (((10 : ℤ) ^ a.exp : ℤ) : ℚ) <
          (2 : ℚ) * ((a.num * 100).emod (10 ^ a.exp) : ℚ))
    · have hq : (((10 : ℤ) ^ a.exp : ℤ) : ℚ) <
          (2 : ℚ) * ((a.num * 100).emod (10 ^ a.exp) : ℚ) := by exact_mod_cast h
      linarith
  refine ⟨?_, rfl⟩
  simp only [Dec.round2, roundHalfEven]
  by_cases hc1 : 2 * (a.num * 100).emod (10 ^ a.exp) < 10 ^ a.exp
  · rw [if_pos hc1, if_pos (h1.mpr hc1), hfloor]
  · rw [if_neg hc1, if_neg (fun hh => hc1 (h1.mp hh))]
    by_cases hc2 : 10 ^ a.exp < 2 * (a.num * 100).emod (10 ^ a.exp)
    · rw [if_pos hc2, if_pos (h2.mpr hc2), hfloor]
    · rw [if_neg hc2, if_neg (fun hh => hc2 (h2.mp hh)), hfloor]

lemma Dec.round2_val (a : Dec) : (Dec.round2 a).val = round2Q a.val := by
  obtain ⟨h1, h2⟩ := Dec.round2_num a
  show ((Dec.round2 a).num : ℚ) / 10 ^ (Dec.round2 a).exp = round2Q a.val
  rw [h1, h2]
  unfold round2Q
  norm_num

lemma roundHalfEven_intCast (k : ℤ) : roundHalfEven (k : ℚ) = k := by
  unfold roundHalfEven
  rw [Int.floor_intCast]
  norm_num

lemma round2Q_centi (k : ℤ) : round2Q ((k : ℚ) / 100) = (k : ℚ) / 100 := by
  unfold round2Q
  have h : (100 : ℚ) * ((k : ℚ) / 100) = (k : ℚ) := by ring
  rw [h, roundHalfEven_intCast]

lemma abs_roundHalfEven_sub (q : ℚ) : |(roundHalfEven q : ℚ) - q| ≤ 1/2 := by
  have hf1 := Int.floor_le q
  have hf2 := Int.lt_floor_add_one q
  unfold roundHalfEven
  split
  · rw [abs_le]
    constructor <;> push_cast <;> linarith
  · split
    · rw [abs_le]
      constructor <;> push_cast <;> linarith
    · split <;> rw [abs_le] <;> constructor <;> push_cast <;> linarith

lemma abs_round2Q_sub (q : ℚ) : |round2Q q - q| ≤ 1/200 := by
  unfold round2Q
  have h := abs_roundHalfEven_sub (100 * q)
  have heq : (roundHalfEven (100 * q) : ℚ) / 100 - q =
      ((roundHalfEven (100 * q) : ℚ) - 100 * q) / 100 := by ring
  rw [heq, abs_div, show |(100 : ℚ)| = 100 by norm_num]
  linarith

/-! ## C2: overlap test against stored media-channel slots -/

/-- Exact slot bounds stored for a center frequency that is a whole multiple
of 0.01 THz: the two-decimal formatting is the identity there. -/
lemma centi_slot_val (k : ℤ) :
    ((Dec.sub ⟨k, 2⟩ d05).round2).val = (k : ℚ)/100 - 1/20 ∧
    ((Dec.add ⟨k, 2⟩ d05).round2).val = (k : ℚ)/100 + 1/20 := by
  have hv : (⟨k, 2⟩ : Dec).val = (k : ℚ)/100 := by
    unfold Dec.val
    norm_num
  constructor
  · rw [Dec.round2_val, Dec.val_sub, hv, d05_val,
      show (k : ℚ)/100 - 1/20 = ((k - 5 : ℤ) : ℚ)/100 by push_cast; ring,
      round2Q_centi]
  · rw [Dec.round2_val, Dec.val_add, hv, d05_val,
      show (k : ℚ)/100 + 1/20 = ((k + 5 : ℤ) : ℚ)/100 by push_cast; ring,
      round2Q_centi]

/-- C2 (amended).  On a device whose media-channel interfaces under the
scanned prefix were all created by ensure_mc_deg from center frequencies that
are whole multiples of 0.01 THz, _slot_overlaps holds for a parsed candidate
frequency f exactly when |f - center| < 0.1 for some such stored MC; in
particular the touching case |f - center| = 0.1 reports no overlap.  (Decimal
values are modelled as exact rationals; the claim as frozen, which allows
arbitrary center frequencies, fails because the stored bounds are formatted to
two decimal places — see the counterexample.) -/
theorem slot_overlaps_iff_centers (dev : Dev) (deg : Int) (dir fs : String)
    (f : Dec) (hf : pyFloat? fs = some f)
    (hmc : ∀ i ∈ dev.interface, pyStartsWith i.name (mcPref deg dir) = true →
      ∃ k : ℤ, i.mc_ttp =
        some ((Dec.sub ⟨k, 2⟩ d05).round2, (Dec.add ⟨k, 2⟩ d05).round2)) :
    slot_overlaps dev deg dir fs = true ↔
      ∃ i ∈ dev.interface, pyStartsWith i.name (mcPref deg dir) = true ∧
        ∃ k : ℤ, i.mc_ttp =
          some ((Dec.sub ⟨k, 2⟩ d05).round2, (Dec.add ⟨k, 2⟩ d05).round2) ∧
          |f.val - (k : ℚ)/100| < 1/10 := by
  unfold slot_overlaps
  rw [hf, List.any_eq_true]
  constructor
  · rintro ⟨i, hi, hcond⟩
    rw [Bool.and_eq_true] at hcond
    obtain ⟨hpref, hrest⟩ := hcond
    obtain ⟨k, hk⟩ := hmc i hi hpref
    refine ⟨i, hi, hpref, k, hk, ?_⟩
    rw [hk] at hrest
    simp only [Bool.not_eq_true'] at hrest
    rw [Bool.or_eq_false_iff] at hrest
    obtain ⟨hlo, hhi⟩ := hrest
    rw [Dec.le_eq_false_iff] at hlo hhi
    rw [Dec.val_add, d05_val, (centi_slot_val k).1] at hlo
    rw [Dec.val_sub, d05_val, (centi_slot_val k).2] at hhi
    rw [abs_sub_lt_iff]
    constructor <;> linarith
  · rintro ⟨i, hi, hpref, k, hk, habs⟩
    refine ⟨i, hi, ?_⟩
    rw [Bool.and_eq_true]
    refine ⟨hpref, ?_⟩
    rw [hk]
    simp only [Bool.not_eq_true']
    rw [Bool.or_eq_false_iff]
    rw [abs_sub_lt_iff] at habs
    constructor
    · rw [Dec.le_eq_false_iff, Dec.val_add, d05_val, (centi_slot_val k).1]
      linarith [habs.2]
    · rw [Dec.le_eq_false_iff, Dec.val_sub, d05_val, (centi_slot_val k).2]
      linarith [habs.1]

/-- An MC interface stored for center 193.30 (slot [193.25, 193.35]). -/
def mcCentiIntf : Interface :=
  { name := "MC-TTP-DEG1-RX-193.3",
    mc_ttp := some (⟨19325, 2⟩, ⟨19335, 2⟩) }

/-- A device with one MC interface stored for center 193.30; used by the C2
witness. -/
def mcCentiDev : Dev := { interface := [mcCentiIntf] }

/-- Witness for C2: candidate 193.39 is within 0.1 of the stored center
193.30, and _slot_overlaps reports the conflict. -/
theorem slot_overlaps_iff_centers_witness :
    slot_overlaps mcCentiDev 1 "RX" "193.39" = true := by
  refine (slot_overlaps_iff_centers mcCentiDev 1 "RX" "193.39" ⟨19339, 2⟩
    (by decide) ?_).mpr ?_
  · intro i hi hpref
    refine ⟨19330, ?_⟩
    simp only [mcCentiDev, List.mem_singleton] at hi
    rw [hi]
    decide
  · refine ⟨mcCentiIntf, by decide, by decide, 19330, by decide, ?_⟩
    rw [show (⟨19339, 2⟩ : Dec).val = (19339 : ℚ)/100 by
      unfold Dec.val; norm_num]
    rw [abs_sub_lt_iff]
    norm_num

/-- The MC interface that ensure_mc_deg creates from the three-decimal center
frequency "193.322": the stored slot is rounded to [193.27, 193.37]. -/
def mc322Intf : Interface :=
  { name := "MC-TTP-DEG1-RX-193.322",
    type := "openROADM-if:mediaChannelTrailTerminationPoint",
    administrative_state := "inService",
    supporting_circuit_pack_name := "DEG1-AMPRX",
    supporting_port := "DEG1-AMPRX-IN",
    supporting_interface_list := ["OMS-DEG1-TTP-RX"],
    mc_ttp := some (⟨19327, 2⟩, ⟨19337, 2⟩) }

/-- The device produced by ensure_mc_deg on an empty device from the center
frequency "193.322". -/
def mc322Dev : Dev := { interface := [mc322Intf] }

/-- Counterexample to C2 as frozen.  With the MC created by ensure_mc_deg for
center 193.322, the well-formed candidate 193.421 satisfies
|f - center| = 0.099 < 0.1, yet _slot_overlaps reports no overlap: the stored
bounds were formatted to two decimal places ([193.27, 193.37]), and
193.421 - 0.05 = 193.371 clears the stored maximum. -/
theorem slot_overlaps_iff_centers_cex :
    ensure_mc_deg {} 1 "RX" "193.322" =
      some ("MC-TTP-DEG1-RX-193.322", mc322Dev) ∧
    pyFloat? "193.322" = some ⟨193322, 3⟩ ∧
    pyFloat? "193.421" = some ⟨193421, 3⟩ ∧
    |(⟨193421, 3⟩ : Dec).val - (⟨193322, 3⟩ : Dec).val| < 1/10 ∧
    slot_overlaps mc322Dev 1 "RX" "193.421" = false := by
  refine ⟨by decide, by decide, by decide, ?_, by decide⟩
  rw [show (⟨193421, 3⟩ : Dec).val = (193421 : ℚ)/1000 by
      unfold Dec.val; norm_num,
    show (⟨193322, 3⟩ : Dec).val = (193322 : ℚ)/1000 by
      unfold Dec.val; norm_num]
  rw [abs_sub_lt_iff]
  norm_num

/-! ## C6: delete cleanup with sharing protection -/

/-- C6.  Deleting an existing connection removes exactly that connection
record, and deletes exactly those interfaces among the two endpoints and the
entries of the endpoints' supporting-interface lists that are not protected:
an interface is protected when it is the source or destination of some
remaining connection, or an entry of a remaining connection's endpoint's
supporting-interface list.  All other interfaces survive unchanged. -/
theorem delete_connection_cleanup (dn : String) (dev : Dev) (c : String)
    (conn : Conn)
    (h : dev.roadm_connections.find? (fun rc => rc.name = c) = some conn) :
    (∀ rc, rc ∈ (deleteConnection dn dev c).2.roadm_connections ↔
      rc ∈ dev.roadm_connections ∧ ¬ rc.name = c) ∧
    (∀ i, i ∈ (deleteConnection dn dev c).2.interface ↔
      i ∈ dev.interface ∧
        ¬((i.name = conn.src_if ∨ i.name = conn.dst_if ∨
            i.name ∈ silOf dev conn.src_if ∨ i.name ∈ silOf dev conn.dst_if) ∧
          ¬ ∃ rc ∈ dev.roadm_connections, ¬ rc.name = c ∧
            (rc.src_if = i.name ∨ rc.dst_if = i.name ∨
              i.name ∈ silOf dev rc.src_if ∨ i.name ∈ silOf dev rc.dst_if))) := by
  unfold deleteConnection
  rw [h]
  constructor
  · intro rc
    simp [List.mem_filter]
  · intro i
    simp only [List.mem_filter]
    have hcand : ([conn.src_if, conn.dst_if] ++
        [conn.src_if, conn.dst_if].flatMap (silOf dev)).contains i.name =
          true ↔
        (i.name = conn.src_if ∨ i.name = conn.dst_if ∨
          i.name ∈ silOf dev conn.src_if ∨ i.name ∈ silOf dev conn.dst_if) := by
      rw [List.elem_iff]
      simp [List.mem_flatMap, or_assoc]
    have hused : ∀ used0 : List String,
        (used0 ++ used0.flatMap (silOf dev)).contains i.name = true ↔
          (i.name ∈ used0 ∨ ∃ y ∈ used0, i.name ∈ silOf dev y) := by
      intro used0
      rw [List.elem_iff]
      simp [List.mem_flatMap]
    have hused0 : ∀ conns : List Conn,
        (i.name ∈ conns.flatMap (fun rc => [rc.src_if, rc.dst_if]) ∨
          ∃ y ∈ conns.flatMap (fun rc => [rc.src_if, rc.dst_if]),
            i.name ∈ silOf dev y) ↔
        ∃ rc ∈ conns,
          (rc.src_if = i.name ∨ rc.dst_if = i.name ∨
            i.name ∈ silOf dev rc.src_if ∨ i.name ∈ silOf dev rc.dst_if) := by
      intro conns
      simp only [List.mem_flatMap, List.mem_cons, List.mem_singleton,
        List.not_mem_nil, or_false]
      constructor
      · rintro (⟨rc, hrc, hn | hn⟩ | ⟨y, ⟨rc, hrc, hy | hy⟩, hsil⟩)
        · exact ⟨rc, hrc, Or.inl hn.symm⟩
        · exact ⟨rc, hrc, Or.inr (Or.inl hn.symm)⟩
        · exact ⟨rc, hrc, Or.inr (Or.inr (Or.inl (hy ▸ hsil)))⟩
        · exact ⟨rc, hrc, Or.inr (Or.inr (Or.inr (hy ▸ hsil)))⟩
      · rintro ⟨rc, hrc, hn | hn | hn | hn⟩
        · exact Or.inl ⟨rc, hrc, Or.inl hn.symm⟩
        · exact Or.inl ⟨rc, hrc, Or.inr hn.symm⟩
        · exact Or.inr ⟨rc.src_if, ⟨rc, hrc, Or.inl rfl⟩, hn⟩
        · exact Or.inr ⟨rc.dst_if, ⟨rc, hrc, Or.inr rfl⟩, hn⟩
    have hmemfilter : ∀ rc : Conn,
        rc ∈ dev.roadm_connections.filter (fun rc => !(rc.name = c)) ↔
          rc ∈ dev.roadm_connections ∧ ¬ rc.name = c := by
      intro rc
      simp [List.mem_filter]
    constructor
    · rintro ⟨hi, hb⟩
      refine ⟨hi, ?_⟩
      rw [Bool.not_eq_true', Bool.and_eq_false_iff] at hb
      rintro ⟨hc1, hc2⟩
      rcases hb with hb | hb
      · rw [← hcand] at hc1
        rw [hb] at hc1
        exact absurd hc1 (by simp)
      · rw [Bool.not_eq_false'] at hb
        rw [hused _, hused0 _] at hb
        obtain ⟨rc, hrc, hdis⟩ := hb
        rw [hmemfilter] at hrc
        exact hc2 ⟨rc, hrc.1, hrc.2, hdis⟩
    · rintro ⟨hi, hprot⟩
      refine ⟨hi, ?_⟩
      rw [Bool.not_eq_true', Bool.and_eq_false_iff]
      by_cases hc1 : (i.name = conn.src_if ∨ i.name = conn.dst_if ∨
          i.name ∈ silOf dev conn.src_if ∨ i.name ∈ silOf dev conn.dst_if)
      · right
        rw [Bool.not_eq_false', hused _, hused0 _]
        rcases not_and.mp hprot hc1 |> not_not.mp with ⟨rc, hrc, hne, hdis⟩
        exact ⟨rc, (hmemfilter rc).2 ⟨hrc, hne⟩, hdis⟩
      · left
        rw [Bool.eq_false_iff]
        intro hcon
        exact hc1 (hcand.mp hcon)

/-- The SRG-side NMC endpoint of the second (sharing) connection of the C6
witness. -/
def nmcSRG3 : Interface :=
  { name := "SRG1-PP03-TX-193.3",
    type := "openROADM-if:networkMediaChannelConnectionTerminationPoint",
    administrative_state := "inService",
    supporting_circuit_pack_name := "SRG1-WSS",
    supporting_port := "SRG1-OUT3",
    nmc_ctp := some ("193.3", "100") }

def conn1C6 : Conn :=
  { name := "DEG1-RX-to-DEG2-TX-193.3",
    src_if := "NMC-CTP-DEG1-RX-193.3",
    dst_if := "NMC-CTP-DEG2-TX-193.3",
    opticalControlMode := "off" }

def conn2C6 : Conn :=
  { name := "DEG1-RX-to-SRG1-PP03-TX-193.3",
    src_if := "NMC-CTP-DEG1-RX-193.3",
    dst_if := "SRG1-PP03-TX-193.3",
    opticalControlMode := "off" }

/-- Device of the C6 witness: the four interfaces of the degree-to-degree
connection plus an SRG-side NMC, and a second connection sharing
NMC-CTP-DEG1-RX-193.3. -/
def devC6 : Dev :=
  { interface := [mcRX1, nmcRX1, mcTX2, nmcTX2, nmcSRG3],
    roadm_connections := [conn1C6, conn2C6] }

/-- Witness for C6: deleting the degree-to-degree connection on devC6 keeps
the shared NMC-CTP-DEG1-RX-193.3 and its supporting MC, deletes the
unreferenced NMC/MC of DEG2, and removes the connection record. -/
theorem delete_connection_cleanup_witness :
    nmcRX1 ∈ (deleteConnection "D1" devC6
      "DEG1-RX-to-DEG2-TX-193.3").2.interface ∧
    mcRX1 ∈ (deleteConnection "D1" devC6
      "DEG1-RX-to-DEG2-TX-193.3").2.interface ∧
    nmcTX2 ∉ (deleteConnection "D1" devC6
      "DEG1-RX-to-DEG2-TX-193.3").2.interface ∧
    mcTX2 ∉ (deleteConnection "D1" devC6
      "DEG1-RX-to-DEG2-TX-193.3").2.interface ∧
    conn1C6 ∉ (deleteConnection "D1" devC6
      "DEG1-RX-to-DEG2-TX-193.3").2.roadm_connections := by
  have T := delete_connection_cleanup "D1" devC6 "DEG1-RX-to-DEG2-TX-193.3"
    conn1C6 (by decide)
  refine ⟨(T.2 nmcRX1).mpr ⟨by decide, by decide⟩,
    (T.2 mcRX1).mpr ⟨by decide, by decide⟩, ?_, ?_, ?_⟩
  · intro hmem
    exact ((T.2 nmcTX2).mp hmem).2 (by decide)
  · intro hmem
    exact ((T.2 mcTX2).mp hmem).2 (by decide)
  · intro hmem
    exact ((T.1 conn1C6).mp hmem).2 (by decide)

/-! ## C9: a successful build is not re-runnable -/

lemma mcIfName_eq_pref_append (deg : Int) (dir fs : String) :
    mcIfName deg dir fs = mcPref deg dir ++ fs := by
  apply String.ext
  simp [mcIfName, mcPref]

lemma upsertConn_interface (dev : Dev) (n a b : String) (h : Bool) :
    (upsertConn dev n a b h).interface = dev.interface := by
  unfold upsertConn
  split <;> rfl

lemma ensure_nmc_deg_mono (dev : Dev) (deg : Int) (dir fs : String)
    (i : Interface) (hi : i ∈ dev.interface) :
    i ∈ (ensure_nmc_deg dev deg dir fs).2.interface := by
  unfold ensure_nmc_deg
  by_cases hin : hasInterface dev (nmcIfName deg dir fs) = true
  · simp only [hin, if_true]
    exact hi
  · simp only [Bool.not_eq_true] at hin
    simp only [hin, Bool.false_eq_true, if_false]
    exact List.mem_append_left _ hi

lemma ensure_nmc_srg_pp_mono (dev : Dev) (pp : Int) (dir fs : String)
    (i : Interface) (hi : i ∈ dev.interface) :
    i ∈ (ensure_nmc_srg_pp dev pp dir fs).2.interface := by
  unfold ensure_nmc_srg_pp
  by_cases hin : hasInterface dev (srgPPIfName pp dir fs) = true
  · simp only [hin, if_true]
    exact hi
  · simp only [Bool.not_eq_true] at hin
    simp only [hin, Bool.false_eq_true, if_false]
    exact List.mem_append_left _ hi

/-- When the frequency string parses, ensure_mc_deg always succeeds and only
extends the interface collection. -/
lemma ensure_mc_deg_success (dev : Dev) (deg : Int) (dir fs : String)
    (q : Dec) (hq : pyFloat? fs = some q) :
    ∃ dev2, ensure_mc_deg dev deg dir fs = some (mcIfName deg dir fs, dev2) ∧
      ∀ i ∈ dev.interface, i ∈ dev2.interface := by
  unfold ensure_mc_deg
  by_cases hin : hasInterface dev (mcIfName deg dir fs) = true
  · simp only [hin, if_true]
    exact ⟨dev, rfl, fun i hi => hi⟩
  · simp only [Bool.not_eq_true] at hin
    simp only [hin, Bool.false_eq_true, if_false]
    rw [hq]
    exact ⟨_, rfl, fun i hi => List.mem_append_left _ hi⟩

/-- When the interface does not exist yet, ensure_mc_deg creates it with the
rounded slot bounds derived from the parsed center frequency. -/
lemma ensure_mc_deg_creates (dev : Dev) (deg : Int) (dir fs : String)
    (q : Dec) (hq : pyFloat? fs = some q)
    (hnew : ∀ i ∈ dev.interface, ¬ i.name = mcIfName deg dir fs) :
    ∃ dev2, ensure_mc_deg dev deg dir fs = some (mcIfName deg dir fs, dev2) ∧
      ∃ i ∈ dev2.interface, i.name = mcIfName deg dir fs ∧
        i.mc_ttp = some ((q.sub d05).round2, (q.add d05).round2) := by
  unfold ensure_mc_deg
  have hhas : hasInterface dev (mcIfName deg dir fs) = false := by
    rw [Bool.eq_false_iff]
    intro hcon
    unfold hasInterface at hcon
    rw [List.any_eq_true] at hcon
    obtain ⟨i, hi, hname⟩ := hcon
    exact hnew i hi (by simpa using hname)
  simp only [ensure_mc_deg, hhas, Bool.false_eq_true, if_false]
  rw [hq]
  refine ⟨_, rfl, _, List.mem_append_right _ (List.mem_singleton.mpr rfl),
    rfl, rfl⟩

/-- The freshly stored slot always overlaps its own center frequency: the
rounded bounds lie within 1/200 of center ∓ 1/20, so the candidate interval
around the same center cannot clear them. -/
lemma slot_overlaps_self (dev : Dev) (deg : Int) (dir fs : String) (q : Dec)
    (hq : pyFloat? fs = some q) (i : Interface) (hi : i ∈ dev.interface)
    (hname : i.name = mcIfName deg dir fs)
    (hslot : i.mc_ttp = some ((q.sub d05).round2, (q.add d05).round2)) :
    slot_overlaps dev deg dir fs = true := by
  unfold slot_overlaps
  rw [hq, List.any_eq_true]
  refine ⟨i, hi, ?_⟩
  rw [Bool.and_eq_true]
  constructor
  · unfold pyStartsWith
    rw [hname, mcIfName_eq_pref_append, String.data_append,
      List.isPrefixOf_iff_prefix]
    exact List.prefix_append _ _
  · rw [hslot]
    simp only [Bool.not_eq_true']
    rw [Bool.or_eq_false_iff]
    have hlo := abs_le.mp (abs_round2Q_sub ((q.sub d05).val))
    have hhi := abs_le.mp (abs_round2Q_sub ((q.add d05).val))
    rw [Dec.val_sub, d05_val] at hlo
    rw [Dec.val_add, d05_val] at hhi
    constructor
    · rw [Dec.le_eq_false_iff, Dec.round2_val, Dec.val_add, d05_val,
        Dec.val_sub, d05_val]
      linarith [hlo.1, hlo.2]
    · rw [Dec.le_eq_false_iff, Dec.round2_val, Dec.val_sub, d05_val,
        Dec.val_add, d05_val]
      linarith [hhi.1, hhi.2]

/-- C9.  After a build that passed validation and created the source-side MC
interface, re-invoking BuildConnection with identical arguments is rejected as
a slot conflict on the source degree — the pre-check does not exempt the MC
the first invocation created, whose stored slot covers the same candidate —
and the rejection leaves the device state unchanged. -/
theorem build_rerun_slot_conflict (dn : String) (dev : Dev) (fs : String)
    (s : Int) (dd dp : Option Int) (htop : Bool) (q : Dec)
    (hq : pyFloat? fs = some q)
    (hone : (dd.isSome ∧ dp = none) ∨ (dd = none ∧ dp.isSome))
    (hnew : ∀ i ∈ dev.interface, ¬ i.name = mcIfName s "RX" fs)
    (h1 : slot_overlaps dev s "RX" fs = false)
    (h2 : ∀ d, dd = some d → slot_overlaps dev d "TX" fs = false) :
    ∀ m dev1, buildConnection dn dev fs (some s) dd dp htop = some (m, dev1) →
      buildConnection dn dev1 fs (some s) dd dp htop =
        some (srcRejectMsg fs s, dev1) := by
  obtain ⟨devA, hA, i, hiA, hiname, hislot⟩ :=
    ensure_mc_deg_creates dev s "RX" fs q hq hnew
  rcases hone with ⟨hds, rfl⟩ | ⟨rfl, hps⟩
  · obtain ⟨d, rfl⟩ := Option.isSome_iff_exists.mp hds
    obtain ⟨devC, hC, monoC⟩ :=
      ensure_mc_deg_success (ensure_nmc_deg devA s "RX" fs).2 d "TX" fs q hq
    have hcomp : buildConnection dn dev fs (some s) (some d) none htop =
        some (connCreatedMsg (degDegConnName s d fs) dn,
          upsertConn (ensure_nmc_deg devC d "TX" fs).2 (degDegConnName s d fs)
            (ensure_nmc_deg devA s "RX" fs).1
            (ensure_nmc_deg devC d "TX" fs).1 htop) := by
      simp [buildConnection, h1, h2 d rfl, hA, hC]
    intro m dev1 hcall
    rw [hcomp] at hcall
    obtain ⟨rfl, rfl⟩ : _ = m ∧ _ = dev1 := by
      simpa using hcall
    have hover : slot_overlaps
        (upsertConn (ensure_nmc_deg devC d "TX" fs).2 (degDegConnName s d fs)
          (ensure_nmc_deg devA s "RX" fs).1
          (ensure_nmc_deg devC d "TX" fs).1 htop) s "RX" fs = true := by
      refine slot_overlaps_self _ s "RX" fs q hq i ?_ hiname hislot
      rw [upsertConn_interface]
      exact ensure_nmc_deg_mono _ d "TX" fs i
        (monoC i (ensure_nmc_deg_mono devA s "RX" fs i hiA))
    simp [buildConnection, hover]
  · obtain ⟨pp, rfl⟩ := Option.isSome_iff_exists.mp hps
    have hcomp : buildConnection dn dev fs (some s) none (some pp) htop =
        some (connCreatedMsg (degPPConnName s pp fs) dn,
          upsertConn (ensure_nmc_srg_pp (ensure_nmc_deg devA s "RX" fs).2 pp
              "TX" fs).2 (degPPConnName s pp fs)
            (ensure_nmc_deg devA s "RX" fs).1
            (ensure_nmc_srg_pp (ensure_nmc_deg devA s "RX" fs).2 pp
              "TX" fs).1 htop) := by
      simp [buildConnection, h1, hA]
    intro m dev1 hcall
    rw [hcomp] at hcall
    obtain ⟨rfl, rfl⟩ : _ = m ∧ _ = dev1 := by
      simpa using hcall
    have hover : slot_overlaps
        (upsertConn (ensure_nmc_srg_pp (ensure_nmc_deg devA s "RX" fs).2 pp
            "TX" fs).2 (degPPConnName s pp fs)
          (ensure_nmc_deg devA s "RX" fs).1
          (ensure_nmc_srg_pp (ensure_nmc_deg devA s "RX" fs).2 pp
            "TX" fs).1 htop) s "RX" fs = true := by
      refine slot_overlaps_self _ s "RX" fs q hq i ?_ hiname hislot
      rw [upsertConn_interface]
      exact ensure_nmc_srg_pp_mono _ pp "TX" fs i
        (ensure_nmc_deg_mono devA s "RX" fs i hiA)
    simp [buildConnection, hover]

/-- Witness for C9: the successful C5 build on the empty device, re-invoked
with identical arguments, is rejected as a slot conflict without mutation. -/
theorem build_rerun_slot_conflict_witness :
    buildConnection "D1" (builtDev false) "193.3" (some 1) (some 2) none
        false =
      some (srcRejectMsg "193.3" 1, builtDev false) :=
  build_rerun_slot_conflict "D1" {} "193.3" 1 (some 2) none false ⟨1933, 1⟩
    (by decide) (Or.inl (by decide)) (by decide) (by decide)
    (fun d hd => by cases hd; decide)
    (connCreatedMsg "DEG1-RX-to-DEG2-TX-193.3" "D1") (builtDev false)
    (by decide)

/-! ## C1: round-trip of the naming grammar (lemma stack) -/

lemma digitChar_isDigit {n : Nat} (h : n < 10) : (digitChar n).isDigit = true := by
  interval_cases n <;> decide

lemma digitChar_toNat {n : Nat} (h : n < 10) : (digitChar n).toNat = 48 + n := by
  interval_cases n <;> decide

lemma isDigit_ne_dash {c : Char} (h : c.isDigit = true) :
    ¬ c = Char.ofNat 45 := by
  intro hc
  subst hc
  exact absurd h (by decide)

lemma isDigit_ne_plus {c : Char} (h : c.isDigit = true) :
    ¬ c = Char.ofNat 43 := by
  intro hc
  subst hc
  exact absurd h (by decide)

lemma toDigitsRevF_digits :
    ∀ f n, n < f → ∀ c ∈ toDigitsRevF f n, c.isDigit = true := by
  intro f
  induction f with
  | zero => intro n h; omega
  | succ f ih =>
    intro n h c hc
    simp only [toDigitsRevF] at hc
    by_cases h10 : n < 10
    · rw [if_pos h10] at hc
      simp only [List.mem_singleton] at hc
      rw [hc]
      exact digitChar_isDigit h10
    · rw [if_neg h10] at hc
      rcases List.mem_cons.1 hc with hc | hc
      · rw [hc]
        exact digitChar_isDigit (Nat.mod_lt n (by omega))
      · exact ih (n / 10) (by omega) c hc

lemma toDigitsRevF_ne_nil (f n : Nat) (h : 0 < f) : toDigitsRevF f n ≠ [] := by
  cases f with
  | zero => omega
  | succ f =>
    simp only [toDigitsRevF]
    split <;> simp

lemma natVal_append_singleton (l : List Char) (c : Char) :
    natVal (l ++ [c]) = 10 * natVal l + (c.toNat - 48) := by
  show (l ++ [c]).foldl _ 0 = _
  rw [List.foldl_append]
  rfl

lemma natVal_toDigitsRevF :
    ∀ f n, n < f → natVal (toDigitsRevF f n).reverse = n := by
  intro f
  induction f with
  | zero => intro n h; omega
  | succ f ih =>
    intro n h
    simp only [toDigitsRevF]
    by_cases h10 : n < 10
    · rw [if_pos h10]
      show natVal [digitChar n] = n
      show 10 * 0 + ((digitChar n).toNat - 48) = n
      rw [digitChar_toNat h10]
      omega
    · rw [if_neg h10]
      rw [List.reverse_cons, natVal_append_singleton,
        ih (n / 10) (by omega), digitChar_toNat (Nat.mod_lt n (by omega))]
      omega

lemma natRepr_data (n : Nat) : (natRepr n).data = (toDigitsRevF (n + 1) n).reverse :=
  rfl

lemma natRepr_data_digits (n : Nat) :
    ∀ c ∈ (natRepr n).data, c.isDigit = true := by
  intro c hc
  rw [natRepr_data, List.mem_reverse] at hc
  exact toDigitsRevF_digits (n + 1) n (by omega) c hc

lemma natRepr_data_ne_nil (n : Nat) : (natRepr n).data ≠ [] := by
  rw [natRepr_data]
  simp [toDigitsRevF_ne_nil (n + 1) n (by omega)]

lemma natVal_natRepr (n : Nat) : natVal (natRepr n).data = n := by
  rw [natRepr_data]
  exact natVal_toDigitsRevF (n + 1) n (by omega)

lemma digitsVal?_natRepr (n : Nat) :
    digitsVal? (natRepr n).data = some n := by
  unfold digitsVal?
  rw [if_neg (natRepr_data_ne_nil n),
    if_pos (List.all_eq_true.2 (natRepr_data_digits n)), natVal_natRepr]

lemma pyIntL?_all_digits (cs : List Char) (hne : cs ≠ [])
    (hd : ∀ c ∈ cs, c.isDigit = true) :
    pyIntL? cs = some (natVal cs : Int) := by
  cases cs with
  | nil => exact absurd rfl hne
  | cons c rest =>
    have hc := hd c (List.mem_cons_self c rest)
    simp only [pyIntL?]
    rw [if_neg (isDigit_ne_dash hc), if_neg (isDigit_ne_plus hc)]
    unfold digitsVal?
    rw [if_neg (by simp), if_pos (List.all_eq_true.2 hd)]
    rfl

lemma pyInt?_natRepr (n : Nat) : pyInt? (natRepr n) = some (n : Int) := by
  unfold pyInt?
  rw [pyIntL?_all_digits _ (natRepr_data_ne_nil n) (natRepr_data_digits n),
    natVal_natRepr]

lemma intRepr_nonneg (d : Int) (hd : 0 ≤ d) : intRepr d = natRepr d.toNat := by
  unfold intRepr
  rw [if_neg (not_lt.mpr hd)]

lemma splitOn_token_cons (t rest : List Char)
    (ht : ∀ c ∈ t, ¬ c = Char.ofNat 45) :
    (t ++ Char.ofNat 45 :: rest).splitOn (Char.ofNat 45) =
      t :: rest.splitOn (Char.ofNat 45) := by
  unfold List.splitOn
  exact List.splitOnP_first _ t (fun c hc => by simp [ht c hc]) _ (by simp)
    rest

lemma splitOn_no_dash (t : List Char) (ht : ∀ c ∈ t, ¬ c = Char.ofNat 45) :
    t.splitOn (Char.ofNat 45) = [t] := by
  unfold List.splitOn
  exact List.splitOnP_eq_single _ _ (fun c hc => by simp [ht c hc])

lemma strMk_data (s : String) : (⟨s.data⟩ : String) = s := rfl

/-- Token decomposition of a freshly built name prefix-degree-dir-freq: the
generic worker for the three name builders. -/
lemma pySplit_name (t1 t2 : List Char) (mid : String) (dir f : String)
    (h1 : ∀ c ∈ t1, ¬ c = Char.ofNat 45)
    (h2 : ∀ c ∈ t2, ¬ c = Char.ofNat 45)
    (hmid : ∀ c ∈ mid.data, ¬ c = Char.ofNat 45)
    (hdir : ∀ c ∈ dir.data, ¬ c = Char.ofNat 45)
    (hf : ∀ c ∈ f.data, ¬ c = Char.ofNat 45)
    (s : String)
    (hs : s.data = t1 ++ Char.ofNat 45 :: (t2 ++ Char.ofNat 45 ::
      (mid.data ++ Char.ofNat 45 :: (dir.data ++ Char.ofNat 45 :: f.data)))) :
    pySplit s = [⟨t1⟩, ⟨t2⟩, mid, dir, f] := by
  unfold pySplit
  rw [hs, splitOn_token_cons _ _ h1, splitOn_token_cons _ _ h2,
    splitOn_token_cons _ _ hmid, splitOn_token_cons _ _ hdir,
    splitOn_no_dash _ hf]
  simp [strMk_data]

/-- Token decomposition for the SRG port names (four tokens). -/
lemma pySplit_name4 (t1 : List Char) (mid : String) (dir f : String)
    (h1 : ∀ c ∈ t1, ¬ c = Char.ofNat 45)
    (hmid : ∀ c ∈ mid.data, ¬ c = Char.ofNat 45)
    (hdir : ∀ c ∈ dir.data, ¬ c = Char.ofNat 45)
    (hf : ∀ c ∈ f.data, ¬ c = Char.ofNat 45)
    (s : String)
    (hs : s.data = t1 ++ Char.ofNat 45 :: (mid.data ++ Char.ofNat 45 ::
      (dir.data ++ Char.ofNat 45 :: f.data))) :
    pySplit s = [⟨t1⟩, mid, dir, f] := by
  unfold pySplit
  rw [hs, splitOn_token_cons _ _ h1, splitOn_token_cons _ _ hmid,
    splitOn_token_cons _ _ hdir, splitOn_no_dash _ hf]
  simp [strMk_data]

lemma natRepr_no_dash (n : Nat) :
    ∀ c ∈ (natRepr n).data, ¬ c = Char.ofNat 45 :=
  fun c hc => isDigit_ne_dash (natRepr_data_digits n c hc)

lemma degTok_data (d : Int) (hd : 0 ≤ d) :
    ("DEG" ++ intRepr d).data = 'D' :: 'E' :: 'G' :: (natRepr d.toNat).data := by
  rw [intRepr_nonneg d hd, String.data_append]
  rfl

lemma degTok_no_dash (d : Int) (hd : 0 ≤ d) :
    ∀ c ∈ ("DEG" ++ intRepr d).data, ¬ c = Char.ofNat 45 := by
  intro c hc
  rw [degTok_data d hd] at hc
  rcases List.mem_cons.1 hc with h | hc
  · rw [h]; decide
  rcases List.mem_cons.1 hc with h | hc
  · rw [h]; decide
  rcases List.mem_cons.1 hc with h | hc
  · rw [h]; decide
  exact natRepr_no_dash d.toNat c hc

lemma mcIfName_data (d : Int) (dir f : String) :
    (mcIfName d dir f).data =
      ['M', 'C'] ++ Char.ofNat 45 :: (['T', 'T', 'P'] ++ Char.ofNat 45 ::
        (("DEG" ++ intRepr d).data ++ Char.ofNat 45 ::
          (dir.data ++ Char.ofNat 45 :: f.data))) := by
  show ("MC-TTP-DEG" ++ intRepr d ++ "-" ++ dir ++ "-" ++ f).data = _
  simp only [String.data_append]
  simp

lemma nmcIfName_data (d : Int) (dir f : String) :
    (nmcIfName d dir f).data =
      ['N', 'M', 'C'] ++ Char.ofNat 45 :: (['C', 'T', 'P'] ++ Char.ofNat 45 ::
        (("DEG" ++ intRepr d).data ++ Char.ofNat 45 ::
          (dir.data ++ Char.ofNat 45 :: f.data))) := by
  show ("NMC-CTP-DEG" ++ intRepr d ++ "-" ++ dir ++ "-" ++ f).data = _
  simp only [String.data_append]
  simp

lemma ppTok_data (pp : Int) :
    ("PP" ++ fmtPP pp).data = 'P' :: 'P' :: (fmtPP pp).data := by
  rw [String.data_append]
  rfl

lemma srgPPIfName_data (pp : Int) (dir f : String) :
    (srgPPIfName pp dir f).data =
      ['S', 'R', 'G', '1'] ++ Char.ofNat 45 ::
        (("PP" ++ fmtPP pp).data ++ Char.ofNat 45 ::
          (dir.data ++ Char.ofNat 45 :: f.data)) := by
  show ("SRG1-PP" ++ fmtPP pp ++ "-" ++ dir ++ "-" ++ f).data = _
  simp only [String.data_append]
  simp

lemma fmtPP_digits (pp : Int) (hpp : 0 ≤ pp) :
    (fmtPP pp).data ≠ [] ∧ (∀ c ∈ (fmtPP pp).data, c.isDigit = true) ∧
      natVal (fmtPP pp).data = pp.toNat := by
  unfold fmtPP
  by_cases h10 : 0 ≤ pp ∧ pp < 10
  · rw [if_pos h10]
    rw [show ("0" ++ natRepr pp.toNat).data =
        '0' :: (natRepr pp.toNat).data from rfl]
    refine ⟨by simp, ?_, ?_⟩
    · intro c hc
      rcases List.mem_cons.1 hc with h | hc
      · rw [h]; decide
      · exact natRepr_data_digits pp.toNat c hc
    · show natVal (natRepr pp.toNat).data = pp.toNat
      exact natVal_natRepr pp.toNat
  · rw [if_neg h10, intRepr_nonneg pp hpp]
    exact ⟨natRepr_data_ne_nil pp.toNat, natRepr_data_digits pp.toNat,
      natVal_natRepr pp.toNat⟩

lemma ppTok_no_dash (pp : Int) (hpp : 0 ≤ pp) :
    ∀ c ∈ ("PP" ++ fmtPP pp).data, ¬ c = Char.ofNat 45 := by
  intro c hc
  rw [ppTok_data pp] at hc
  rcases List.mem_cons.1 hc with h | hc
  · rw [h]; decide
  rcases List.mem_cons.1 hc with h | hc
  · rw [h]; decide
  exact isDigit_ne_dash ((fmtPP_digits pp hpp).2.1 c hc)

/-- A nonempty unsigned decimal literal: digits with at most one dot and at
least one digit.  Python float() accepts every such string. -/
def DecimalStr (f : String) : Prop :=
  f.data ≠ [] ∧ (∀ c ∈ f.data, c.isDigit = true ∨ c = Char.ofNat 46) ∧
    f.data.count (Char.ofNat 46) ≤ 1 ∧ ∃ c ∈ f.data, c.isDigit = true

instance (f : String) : Decidable (DecimalStr f) := by
  unfold DecimalStr
  infer_instance

lemma DecimalStr.no_dash {f : String} (hf : DecimalStr f) :
    ∀ c ∈ f.data, ¬ c = Char.ofNat 45 := by
  intro c hc hdash
  rcases hf.2.1 c hc with h | h
  · exact isDigit_ne_dash h hdash
  · rw [hdash] at h
    exact absurd h (by decide)

lemma DecimalStr.ne_of_bad_char {f : String} (hf : DecimalStr f) {s : String}
    (c : Char) (hc : c ∈ s.data)
    (hbad : ¬(c.isDigit = true ∨ c = Char.ofNat 46)) : ¬ f = s := by
  intro heq
  exact hbad (hf.2.1 c (heq ▸ hc))

lemma DecimalStr.not_startsWith {f : String} (hf : DecimalStr f) (c : Char)
    (t : List Char) (p : String) (hp : p.data = c :: t)
    (hbad : ¬(c.isDigit = true ∨ c = Char.ofNat 46)) :
    pyStartsWith f p = false := by
  rw [Bool.eq_false_iff]
  intro hcon
  unfold pyStartsWith at hcon
  rw [List.isPrefixOf_iff_prefix] at hcon
  obtain ⟨u, hu⟩ := hcon
  apply hbad
  apply hf.2.1 c
  rw [← hu, hp]
  simp

lemma dropWhile_head_not {p : Char → Bool} :
    ∀ (l : List Char) (c : Char) (rest : List Char),
      l.dropWhile p = c :: rest → p c = false := by
  intro l
  induction l with
  | nil => intro c rest h; exact absurd h (by simp)
  | cons a l ih =>
    intro c rest h
    rw [List.dropWhile_cons] at h
    by_cases hpa : p a = true
    · rw [if_pos hpa] at h
      exact ih c rest h
    · rw [if_neg hpa] at h
      obtain ⟨rfl, _⟩ := List.cons.injEq .. ▸ h
      exact (Bool.not_eq_true _).mp hpa

/-- Every well-formed decimal string parses under the float model. -/
lemma pyFloat?_decimal {f : String} (hf : DecimalStr f) :
    (pyFloat? f).isSome = true := by
  obtain ⟨hne, hchars, hcount, hex⟩ := hf
  unfold pyFloat?
  rcases hd : f.data with _ | ⟨c, rest⟩
  · exact absurd hd hne
  have hc := hchars c (hd ▸ List.mem_cons_self c rest)
  have hcd : ¬ c = Char.ofNat 45 := by
    rcases hc with h | h
    · exact isDigit_ne_dash h
    · rw [h]; decide
  have hcp : ¬ c = Char.ofNat 43 := by
    rcases hc with h | h
    · exact isDigit_ne_plus h
    · rw [h]; decide
  simp only [pyFloatL?]
  rw [if_neg hcd, if_neg hcp, ← hd]
  unfold pyFloatCore?
  have hsplitf : f.data.takeWhile Char.isDigit ++
      f.data.dropWhile Char.isDigit = f.data :=
    List.takeWhile_append_dropWhile Char.isDigit f.data
  rcases hdrop : f.data.dropWhile Char.isDigit with _ | ⟨c2, frac⟩
  · rw [hdrop, List.append_nil] at hsplitf
    show (if f.data.takeWhile Char.isDigit = [] then none
      else some (⟨(natVal (f.data.takeWhile Char.isDigit) : Int), 0⟩ :
        Dec)).isSome = true
    rw [hsplitf, if_neg hne]
    rfl
  · show (if c2 = Char.ofNat 46 then
        if frac.all Char.isDigit = true ∧
            (f.data.takeWhile Char.isDigit ≠ [] ∨ frac ≠ []) then
          some (⟨(natVal (f.data.takeWhile Char.isDigit) : Int) *
            10 ^ frac.length + (natVal frac : Int), frac.length⟩ : Dec)
        else none
      else none).isSome = true
    have hc2 : Char.isDigit c2 = false := dropWhile_head_not f.data c2 frac hdrop
    have hc2mem : c2 ∈ f.data := by
      refine (List.dropWhile_sublist Char.isDigit).subset ?_
      rw [hdrop]
      exact List.mem_cons_self c2 frac
    have hc2dot : c2 = Char.ofNat 46 := by
      rcases hchars c2 hc2mem with h | h
      · rw [h] at hc2; exact absurd hc2 (by decide)
      · exact h
    rw [if_pos hc2dot]
    rw [hdrop] at hsplitf
    have hintd : ∀ x ∈ f.data.takeWhile Char.isDigit, x.isDigit = true :=
      fun x hx => List.mem_takeWhile_imp hx
    have hcount0 : (f.data.takeWhile Char.isDigit).count (Char.ofNat 46) = 0 := by
      rw [List.count_eq_zero]
      intro hmem
      have := hintd _ hmem
      rw [show ((Char.ofNat 46).isDigit) = false from rfl] at this
      exact absurd this (by decide)
    have hfrac0 : frac.count (Char.ofNat 46) = 0 := by
      rw [← hsplitf, List.count_append, hcount0, hc2dot] at hcount
      rw [List.count_cons_self] at hcount
      omega
    have hfracall : frac.all Char.isDigit = true := by
      rw [List.all_eq_true]
      intro x hx
      have hxmem : x ∈ f.data := by
        rw [← hsplitf]
        exact List.mem_append_right _ (List.mem_cons_of_mem c2 hx)
      rcases hchars x hxmem with h | h
      · exact h
      · exfalso
        rw [List.count_eq_zero] at hfrac0
        exact hfrac0 (h ▸ hx)
    have hor : f.data.takeWhile Char.isDigit ≠ [] ∨ frac ≠ [] := by
      obtain ⟨c0, hc0mem, hc0d⟩ := hex
      rw [← hsplitf] at hc0mem
      rcases List.mem_append.1 hc0mem with hm | hm
      · exact Or.inl (List.ne_nil_of_mem hm)
      · rcases List.mem_cons.1 hm with hm | hm
        · rw [hm, hc2dot] at hc0d
          exact absurd hc0d (by decide)
        · exact Or.inr (List.ne_nil_of_mem hm)
    rw [if_pos ⟨hfracall, hor⟩]
    rfl

lemma takeWhile_of_all {p : Char → Bool} :
    ∀ l : List Char, (∀ c ∈ l, p c = true) → l.takeWhile p = l := by
  intro l
  induction l with
  | nil => intro h; rfl
  | cons a l ih =>
    intro h
    rw [List.takeWhile_cons, if_pos (h a (List.mem_cons_self a l)),
      ih (fun c hc => h c (List.mem_cons_of_mem a hc))]

lemma updIds_MC (acc : Option Int × Option Int × Option Int) :
    updIds acc "MC" = acc := rfl

lemma updIds_TTP (acc : Option Int × Option Int × Option Int) :
    updIds acc "TTP" = acc := rfl

lemma updIds_NMC (acc : Option Int × Option Int × Option Int) :
    updIds acc "NMC" = acc := rfl

lemma updIds_CTP (acc : Option Int × Option Int × Option Int) :
    updIds acc "CTP" = acc := rfl

lemma updIds_RX (acc : Option Int × Option Int × Option Int) :
    updIds acc "RX" = acc := rfl

lemma updIds_TX (acc : Option Int × Option Int × Option Int) :
    updIds acc "TX" = acc := rfl

lemma updIds_SRG1 (acc : Option Int × Option Int × Option Int) :
    updIds acc "SRG1" = (acc.1, some 1, acc.2.2) := rfl

lemma updIds_degTok (acc : Option Int × Option Int × Option Int) (d : Int)
    (hd : 0 ≤ d) :
    updIds acc ("DEG" ++ intRepr d) = (some d, acc.2.1, acc.2.2) := by
  unfold updIds
  have hsw : pyStartsWith ("DEG" ++ intRepr d) "DEG" = true := by
    unfold pyStartsWith
    rw [String.data_append, List.isPrefixOf_iff_prefix]
    exact List.prefix_append _ _
  rw [if_pos hsw]
  have hdrop : strDrop ("DEG" ++ intRepr d) 3 = intRepr d := by
    unfold strDrop
    rw [degTok_data d hd]
    show (⟨(natRepr d.toNat).data⟩ : String) = intRepr d
    rw [strMk_data, intRepr_nonneg d hd]
  rw [hdrop, intRepr_nonneg d hd, pyInt?_natRepr, Int.toNat_of_nonneg hd]

lemma updIds_ppTok (acc : Option Int × Option Int × Option Int) (pp : Int)
    (hpp : 0 ≤ pp) :
    updIds acc ("PP" ++ fmtPP pp) = (acc.1, acc.2.1, some pp) := by
  obtain ⟨hne, hall, hval⟩ := fmtPP_digits pp hpp
  unfold updIds
  have hD : pyStartsWith ("PP" ++ fmtPP pp) "DEG" = false := by
    rw [Bool.eq_false_iff]
    intro hcon
    unfold pyStartsWith at hcon
    rw [List.isPrefixOf_iff_prefix, ppTok_data] at hcon
    obtain ⟨t, ht⟩ := hcon
    simp at ht
  have hS : pyStartsWith ("PP" ++ fmtPP pp) "SRG" = false := by
    rw [Bool.eq_false_iff]
    intro hcon
    unfold pyStartsWith at hcon
    rw [List.isPrefixOf_iff_prefix, ppTok_data] at hcon
    obtain ⟨t, ht⟩ := hcon
    simp at ht
  have hP : pyStartsWith ("PP" ++ fmtPP pp) "PP" = true := by
    unfold pyStartsWith
    rw [String.data_append, List.isPrefixOf_iff_prefix]
    exact List.prefix_append _ _
  rw [if_neg (by simp [hD]), if_neg (by simp [hS]), if_pos hP]
  have hdrop : (strDrop ("PP" ++ fmtPP pp) 2).data = (fmtPP pp).data := by
    unfold strDrop
    rw [ppTok_data]
    rfl
  rw [hdrop]
  have hrun : digitRunVal? (fmtPP pp).data = some pp.toNat := by
    unfold digitRunVal?
    rw [takeWhile_of_all _ hall, if_neg hne, hval]
  rw [hrun]
  show (acc.1, acc.2.1, some ((pp.toNat : Nat) : Int)) =
    (acc.1, acc.2.1, some pp)
  rw [Int.toNat_of_nonneg hpp]

lemma updIds_decimal (acc : Option Int × Option Int × Option Int)
    (f : String) (hf : DecimalStr f) : updIds acc f = acc := by
  have hD := hf.not_startsWith 'D' ['E', 'G'] "DEG" rfl (by decide)
  have hS := hf.not_startsWith 'S' ['R', 'G'] "SRG" rfl (by decide)
  have hP := hf.not_startsWith 'P' ['P'] "PP" rfl (by decide)
  unfold updIds
  rw [if_neg (by simp [hD]), if_neg (by simp [hS]), if_neg (by simp [hP])]

lemma parse_mcIfName (d : Int) (hd : 0 ≤ d) (dir f : String)
    (hdir : dir = "RX" ∨ dir = "TX") (hf : DecimalStr f) :
    parse_if_name (mcIfName d dir f) =
      { layer := some "MC", degree_id := some d, srg_id := none,
        pp_id := none, direction := some dir, frequency := some f } := by
  have hdirdash : ∀ c ∈ dir.data, ¬ c = Char.ofNat 45 := by
    rcases hdir with rfl | rfl <;> decide
  have hsplit : pySplit (mcIfName d dir f) =
      ["MC", "TTP", "DEG" ++ intRepr d, dir, f] :=
    pySplit_name ['M', 'C'] ['T', 'T', 'P'] ("DEG" ++ intRepr d) dir f
      (by decide) (by decide) (degTok_no_dash d hd) hdirdash hf.no_dash
      (mcIfName d dir f) (mcIfName_data d dir f)
  have hfloat := pyFloat?_decimal hf
  have hfRX : ¬ ("RX" : String) = f := fun h =>
    hf.ne_of_bad_char 'R' (by decide) (by decide) h.symm
  have hfTX : ¬ ("TX" : String) = f := fun h =>
    hf.ne_of_bad_char 'T' (by decide) (by decide) h.symm
  have hdegRX : ¬ ("RX" : String) = "DEG" ++ intRepr d := by
    intro heq
    have h2 := congrArg String.data heq
    rw [degTok_data d hd] at h2
    simp at h2
  have hdegTX : ¬ ("TX" : String) = "DEG" ++ intRepr d := by
    intro heq
    have h2 := congrArg String.data heq
    rw [degTok_data d hd] at h2
    simp at h2
  have hids : List.foldl updIds (none, none, none)
      ["MC", "TTP", "DEG" ++ intRepr d, dir, f] = (some d, none, none) := by
    rcases hdir with rfl | rfl <;>
      simp only [List.foldl_cons, List.foldl_nil, updIds_MC, updIds_TTP,
        updIds_RX, updIds_TX, updIds_degTok _ d hd, updIds_decimal _ f hf]
  simp only [parse_if_name, hsplit]
  rcases hdir with rfl | rfl
  · simp [hids, hfloat, hfRX, hfTX, hdegRX, hdegTX]
  · simp [hids, hfloat, hfRX, hfTX, hdegRX, hdegTX]

lemma parse_nmcIfName (d : Int) (hd : 0 ≤ d) (dir f : String)
    (hdir : dir = "RX" ∨ dir = "TX") (hf : DecimalStr f) :
    parse_if_name (nmcIfName d dir f) =
      { layer := some "NMC", degree_id := some d, srg_id := none,
        pp_id := none, direction := some dir, frequency := some f } := by
  have hdirdash : ∀ c ∈ dir.data, ¬ c = Char.ofNat 45 := by
    rcases hdir with rfl | rfl <;> decide
  have hsplit : pySplit (nmcIfName d dir f) =
      ["NMC", "CTP", "DEG" ++ intRepr d, dir, f] :=
    pySplit_name ['N', 'M', 'C'] ['C', 'T', 'P'] ("DEG" ++ intRepr d) dir f
      (by decide) (by decide) (degTok_no_dash d hd) hdirdash hf.no_dash
      (nmcIfName d dir f) (nmcIfName_data d dir f)
  have hfloat := pyFloat?_decimal hf
  have hfRX : ¬ ("RX" : String) = f := fun h =>
    hf.ne_of_bad_char 'R' (by decide) (by decide) h.symm
  have hfTX : ¬ ("TX" : String) = f := fun h =>
    hf.ne_of_bad_char 'T' (by decide) (by decide) h.symm
  have hdegRX : ¬ ("RX" : String) = "DEG" ++ intRepr d := by
    intro heq
    have h2 := congrArg String.data heq
    rw [degTok_data d hd] at h2
    simp at h2
  have hdegTX : ¬ ("TX" : String) = "DEG" ++ intRepr d := by
    intro heq
    have h2 := congrArg String.data heq
    rw [degTok_data d hd] at h2
    simp at h2
  have hids : List.foldl updIds (none, none, none)
      ["NMC", "CTP", "DEG" ++ intRepr d, dir, f] = (some d, none, none) := by
    rcases hdir with rfl | rfl <;>
      simp only [List.foldl_cons, List.foldl_nil, updIds_NMC, updIds_CTP,
        updIds_RX, updIds_TX, updIds_degTok _ d hd, updIds_decimal _ f hf]
  simp only [parse_if_name, hsplit]
  rcases hdir with rfl | rfl
  · simp [hids, hfloat, hfRX, hfTX, hdegRX, hdegTX]
  · simp [hids, hfloat, hfRX, hfTX, hdegRX, hdegTX]

lemma parse_srgPPIfName (pp : Int) (hpp : 0 ≤ pp) (dir f : String)
    (hdir : dir = "RX" ∨ dir = "TX") (hf : DecimalStr f) :
    parse_if_name (srgPPIfName pp dir f) =
      { layer := some "NMC", degree_id := none, srg_id := some 1,
        pp_id := some pp, direction := some dir, frequency := some f } := by
  have hdirdash : ∀ c ∈ dir.data, ¬ c = Char.ofNat 45 := by
    rcases hdir with rfl | rfl <;> decide
  have hsplit : pySplit (srgPPIfName pp dir f) =
      ["SRG1", "PP" ++ fmtPP pp, dir, f] :=
    pySplit_name4 ['S', 'R', 'G', '1'] ("PP" ++ fmtPP pp) dir f
      (by decide) (ppTok_no_dash pp hpp) hdirdash hf.no_dash
      (srgPPIfName pp dir f) (srgPPIfName_data pp dir f)
  have hfloat := pyFloat?_decimal hf
  have hfRX : ¬ ("RX" : String) = f := fun h =>
    hf.ne_of_bad_char 'R' (by decide) (by decide) h.symm
  have hfTX : ¬ ("TX" : String) = f := fun h =>
    hf.ne_of_bad_char 'T' (by decide) (by decide) h.symm
  have hppRX : ¬ ("RX" : String) = "PP" ++ fmtPP pp := by
    intro heq
    have h2 := congrArg String.data heq
    rw [ppTok_data] at h2
    simp at h2
  have hppTX : ¬ ("TX" : String) = "PP" ++ fmtPP pp := by
    intro heq
    have h2 := congrArg String.data heq
    rw [ppTok_data] at h2
    simp at h2
  have hids : List.foldl updIds (none, none, none)
      ["SRG1", "PP" ++ fmtPP pp, dir, f] = (none, some 1, some pp) := by
    rcases hdir with rfl | rfl <;>
      simp only [List.foldl_cons, List.foldl_nil, updIds_SRG1,
        updIds_RX, updIds_TX, updIds_ppTok _ pp hpp, updIds_decimal _ f hf]
  simp only [parse_if_name, hsplit]
  rcases hdir with rfl | rfl
  · simp [hids, hfloat, hfRX, hfTX, hppRX, hppTX]
    decide
  · simp [hids, hfloat, hfRX, hfTX, hppRX, hppTX]
    decide

lemma ensure_mc_deg_name (dev : Dev) (deg : Int) (dir fs : String)
    (r : String × Dev) (h : ensure_mc_deg dev deg dir fs = some r) :
    r.1 = mcIfName deg dir fs := by
  unfold ensure_mc_deg at h
  by_cases hin : hasInterface dev (mcIfName deg dir fs) = true
  · rw [if_pos hin] at h
    obtain rfl := Option.some.inj h
    rfl
  · simp only [Bool.not_eq_true] at hin
    simp only [hin, Bool.false_eq_true, if_false] at h
    cases hq : pyFloat? fs with
    | none => rw [hq] at h; exact absurd h (by simp)
    | some q =>
      rw [hq] at h
      obtain rfl := Option.some.inj h
      rfl

lemma ensure_nmc_deg_name (dev : Dev) (deg : Int) (dir fs : String) :
    (ensure_nmc_deg dev deg dir fs).1 = nmcIfName deg dir fs := by
  unfold ensure_nmc_deg
  by_cases hin : hasInterface dev (nmcIfName deg dir fs) = true
  · simp only [hin, if_true]
  · simp only [Bool.not_eq_true] at hin
    simp only [hin, Bool.false_eq_true, if_false]

lemma ensure_nmc_srg_pp_name (dev : Dev) (pp : Int) (dir fs : String) :
    (ensure_nmc_srg_pp dev pp dir fs).1 = srgPPIfName pp dir fs := by
  unfold ensure_nmc_srg_pp
  by_cases hin : hasInterface dev (srgPPIfName pp dir fs) = true
  · simp only [hin, if_true]
  · simp only [Bool.not_eq_true] at hin
    simp only [hin, Bool.false_eq_true, if_false]

/-- C1 (amended).  Round-trip of the naming grammar for the three provisioner
operations, for nonnegative degree and port-pair indices, direction RX or TX,
and an unsigned decimal frequency string: parse_if_name recovers from the
produced name exactly the degree (resp. srg_id 1 and the pp index), the
direction, the frequency string, and the layer of the producing operation
(MC, NMC, NMC), all other fields unset.  (The claim as frozen quantifies over
arbitrary integers; a negative degree breaks the round-trip because str(-1)
introduces an extra dash token — see the counterexample.) -/
theorem provisioner_parse_roundtrip (deg pp : Int) (hdeg : 0 ≤ deg)
    (hpp : 0 ≤ pp) (dir f : String) (hdir : dir = "RX" ∨ dir = "TX")
    (hf : DecimalStr f) :
    (∀ dev r, ensure_mc_deg dev deg dir f = some r →
      parse_if_name r.1 =
        { layer := some "MC", degree_id := some deg, srg_id := none,
          pp_id := none, direction := some dir, frequency := some f }) ∧
    (∀ dev : Dev, parse_if_name (ensure_nmc_deg dev deg dir f).1 =
      { layer := some "NMC", degree_id := some deg, srg_id := none,
        pp_id := none, direction := some dir, frequency := some f }) ∧
    (∀ dev : Dev, parse_if_name (ensure_nmc_srg_pp dev pp dir f).1 =
      { layer := some "NMC", degree_id := none, srg_id := some 1,
        pp_id := some pp, direction := some dir, frequency := some f }) := by
  refine ⟨fun dev r h => ?_, fun dev => ?_, fun dev => ?_⟩
  · rw [ensure_mc_deg_name dev deg dir f r h]
    exact parse_mcIfName deg hdeg dir f hdir hf
  · rw [ensure_nmc_deg_name]
    exact parse_nmcIfName deg hdeg dir f hdir hf
  · rw [ensure_nmc_srg_pp_name]
    exact parse_srgPPIfName pp hpp dir f hdir hf

/-- Witness for C1: the three names produced on an empty device for degree 1,
pp 3, direction RX, frequency "193.3" parse back exactly. -/
theorem provisioner_parse_roundtrip_witness :
    parse_if_name "MC-TTP-DEG1-RX-193.3" =
      { layer := some "MC", degree_id := some 1, srg_id := none,
        pp_id := none, direction := some "RX", frequency := some "193.3" } ∧
    parse_if_name (ensure_nmc_deg ({} : Dev) 1 "RX" "193.3").1 =
      { layer := some "NMC", degree_id := some 1, srg_id := none,
        pp_id := none, direction := some "RX", frequency := some "193.3" } ∧
    parse_if_name (ensure_nmc_srg_pp ({} : Dev) 3 "RX" "193.3").1 =
      { layer := some "NMC", degree_id := none, srg_id := some 1,
        pp_id := some 3, direction := some "RX", frequency := some "193.3" } :=
  ⟨(provisioner_parse_roundtrip 1 3 (by decide) (by decide) "RX" "193.3"
      (Or.inl rfl) (by decide)).1 {} ("MC-TTP-DEG1-RX-193.3", mcOnlyDev)
      (by decide),
    (provisioner_parse_roundtrip 1 3 (by decide) (by decide) "RX" "193.3"
      (Or.inl rfl) (by decide)).2.1 {},
    (provisioner_parse_roundtrip 1 3 (by decide) (by decide) "RX" "193.3"
      (Or.inl rfl) (by decide)).2.2 {}⟩

/-- The MC interface ensure_mc_deg creates for the negative degree -1: the
name embeds str(-1) and so contains an extra dash token. -/
def mcNeg1Intf : Interface :=
  { name := "MC-TTP-DEG-1-RX-193.3",
    type := "openROADM-if:mediaChannelTrailTerminationPoint",
    administrative_state := "inService",
    supporting_circuit_pack_name := "DEG-1-AMPRX",
    supporting_port := "DEG-1-AMPRX-IN",
    supporting_interface_list := ["OMS-DEG-1-TTP-RX"],
    mc_ttp := some (⟨19325, 2⟩, ⟨19335, 2⟩) }

/-- Counterexample to C1 as frozen: with degree -1 the produced name
MC-TTP-DEG-1-RX-193.3 does not parse back to degree_id -1 — the dash of the
sign splits DEG and 1 into separate tokens, so degree_id stays unset. -/
theorem provisioner_parse_roundtrip_cex :
    ensure_mc_deg {} (-1) "RX" "193.3" =
      some ("MC-TTP-DEG-1-RX-193.3", { interface := [mcNeg1Intf] }) ∧
    (parse_if_name "MC-TTP-DEG-1-RX-193.3").degree_id = none ∧
    ¬ (parse_if_name "MC-TTP-DEG-1-RX-193.3").degree_id = some (-1) := by
  refine ⟨by decide, by decide, by decide⟩

end OTOR
